import Mathlib

/-!
# xCrash dumper: process-level report generation (`xcd_process.c`)

A shallow embedding of `src/native/libxcrash_dumper/jni/xcd_process.c`.

* The output descriptor `log_fd` is a list of write attempts (`Ev`), oldest first.
  Every call of `xcc_util_write_str`, `xcc_util_write_format` or of a rendering routine of a
  collaborator (`xcd_thread_record_*`, `xcd_maps_record`, `xcd_meminfo_record`) is one attempt.
  The status of the attempt number `k` (counting from 0) is `Env.write_status k`; `0` is success.
* Everything the file calls but does not define (libc, the kernel, the other translation
  units of the dumper, header constants) is a field of `Env`.
* C strings are `String`; `printf` conversions of integers are rendered with `toString`,
  `%p` and `%#08x` with `fmt_p` and `fmt_x08`.
* A routine in which the dumper can be killed returns an `Option`: `none` stands for the
  run that ends inside `regcomp` when `xcd_process_build_whitelist_regex` hands it the `NULL`
  that `xcc_b64_decode` returned.
* `pid_t` and `int` values are `Int`, `size_t` and `uintptr_t` values are `Nat`.  The counters
  of `xcd_process_record` are bounded by the number of threads of one process and the
  descriptor total by the number of directory entries, so no wrap-around is modelled for them;
  address arithmetic on `uintptr_t` is reduced modulo `2 ^ (8 * sizeof(uintptr_t))`.
-/

namespace XCrash

/-- One write attempt on the output descriptor. -/
inductive Ev where
  | text (s : String)
  | thread_record_info (tid : Int) (pname : String)
  | thread_record_regs (tid : Int)
  | thread_record_backtrace (tid : Int)
  | thread_record_buildid (tid : Int) (dump_elf_hash : Int) (fault_addr : Nat)
  | thread_record_stack (tid : Int)
  | thread_record_memory (tid : Int)
  | maps_record
  | meminfo_record (pid : Int)
  deriving DecidableEq, Repr

/-- The fields of `siginfo_t` that `xcd_process.c` reads. -/
structure siginfo_t where
  si_signo : Int
  si_code : Int
  si_addr : Nat
  si_pid : Int
  si_uid : Int
  deriving DecidableEq, Repr

/-- The fields of `xcd_thread_t` that `xcd_process.c` reads. -/
structure xcd_thread_t where
  tid : Int
  tname : String
  deriving DecidableEq, Repr

/-- Translation of `struct xcd_process`; the queue `thds` is a list in insertion order.
The context `uc` and the map table `maps` are only handed to collaborators, whose answers
are fields of `Env`. -/
structure xcd_process_t where
  pid : Int
  pname : String
  crash_tid : Int
  si : siginfo_t
  thds : List xcd_thread_t
  nthds : Nat
  deriving DecidableEq, Repr

/-- Everything `xcd_process.c` uses without defining it. `R` stands for a compiled `regex_t`. -/
structure Env (R : Type) where
  /-- status returned by the write attempt number `k` -/
  write_status : Nat → Int
  /-- whether `__LP64__` is defined; `sizeof(size_t)` is 8 then and 4 otherwise -/
  lp64 : Bool
  XCC_UTIL_THREAD_SEP : String
  XCC_UTIL_THREAD_END : String
  XCC_ERRNO_SYS : Int
  XCC_ERRNO_NOMEM : Int
  XCC_ERRNO_NOTFND : Int
  /-- `opendir` followed by `readdir` until `NULL`: the entry names, `none` when `opendir` fails -/
  opendir : String → Option (List String)
  /-- `xcc_util_atoi`: `some i` when it returns 0 and stores `i` -/
  xcc_util_atoi : String → Option Int
  /-- `readlink(buf, path, sizeof(path) - 1)`: the returned length and the bytes stored -/
  readlink : String → Int × String
  /-- whether the `malloc` call number `k` of `xcd_process_create` succeeds -/
  malloc : Nat → Bool
  /-- whether `calloc(cnt, sizeof(regex_t))` succeeds -/
  calloc : Nat → Bool
  /-- `xcd_thread_load_frames` for the thread with this tid -/
  xcd_thread_load_frames : Int → Int
  xcd_maps_find_pc : String → String → Nat
  /-- `xcd_util_ptrace_read(pid, addr, dst, bytes)`: the bytes stored at the start of `dst` -/
  xcd_util_ptrace_read : Int → Nat → Nat → List Nat
  /-- `xcd_util_ptrace_read_fully(pid, addr, dst, bytes)`: `some` bytes when it returns 0 -/
  xcd_util_ptrace_read_fully : Int → Nat → Nat → Option (List Nat)
  xcc_util_signal_has_si_addr : siginfo_t → Bool
  xcc_util_signal_has_sender : siginfo_t → Int → Bool
  xcc_util_get_signame : siginfo_t → String
  xcc_util_get_sigcodename : siginfo_t → String
  /-- `popen(cmd, "r")` followed by `fgets` until `NULL`: the chunks read, `none` when it fails -/
  popen : String → Option (List String)
  /-- `(unsigned int)(lines * 1.2)`, a floating-point product -/
  scale_lines : Nat → Nat
  /-- `xcc_b64_decode`: `none` when it returns `NULL` -/
  xcc_b64_decode : String → Option String
  /-- `regcomp(&re[i], decoded, REG_EXTENDED | REG_NOSUB)` for a pattern that is a string
  (not `NULL`): `some` when it returns 0 -/
  regcomp : String → Option R
  /-- `regexec(&re[i], tname, 0, NULL, 0)` -/
  regexec : R → String → Int

variable {R : Type}

/-- Result of a routine that returns `int` and writes: the status `r` and the attempts so far. -/
abbrev Res := Int × List Ev

/-- One write attempt: it is appended to the attempts and gets the status of its number. -/
def attempt (E : Env R) (log : List Ev) (e : Ev) : Res :=
  (E.write_status log.length, log ++ [e])

/-- `xcc_util_write_str(log_fd, s)`. -/
def xcc_util_write_str (E : Env R) (log : List Ev) (s : String) : Res :=
  attempt E log (Ev.text s)

/-- `xcc_util_write_format(log_fd, fmt, ...)`, with the formatted text as argument. -/
def xcc_util_write_format (E : Env R) (log : List Ev) (s : String) : Res :=
  attempt E log (Ev.text s)

/-- The pattern `if(0 != (r = step)) return r;` followed by the rest of the routine. -/
def andThen (a : Res) (k : List Ev → Res) : Res :=
  if a.1 ≠ 0 then a else k a.2

/-! ## `xcd_process_record_fds` -/

/-- The buffer `path` of `xcd_process_record_fds` for the descriptor `fd`: the link target,
or `???` when `readlink` gives no usable length. -/
def fd_path (E : Env R) (pid fd : Int) : String :=
  let buf := "/proc/" ++ toString pid ++ "/fd/" ++ toString fd
  let len := (E.readlink buf).1
  if len ≤ 0 ∨ len > 511 then "???"
  else String.mk ((E.readlink buf).2.toList.take len.toNat)

/-- The line that `xcd_process_record_fds` writes for the descriptor `fd`. -/
def fd_line (E : Env R) (pid fd : Int) : Ev :=
  Ev.text ("    fd " ++ toString fd ++ ": " ++ fd_path E pid fd ++ "\n")

/-- The `while(NULL != (ent = readdir(dir)))` loop of `xcd_process_record_fds`.
Returns `r`, `total` and the attempts; `r ≠ 0` is the `goto clean` exit. -/
def record_fds_loop (E : Env R) (pid : Int) :
    List String → Nat → List Ev → Int × Nat × List Ev
  | [], total, log => (0, total, log)
  | d_name :: rest, total, log =>
    if d_name.toList.head? = none then record_fds_loop E pid rest total log
    else if d_name = "." then record_fds_loop E pid rest total log
    else if d_name = ".." then record_fds_loop E pid rest total log
    else
      match E.xcc_util_atoi d_name with
      | none => record_fds_loop E pid rest total log
      | some fd =>
        if fd < 0 then record_fds_loop E pid rest total log
        else
          let total := total + 1
          if total > 1024 then record_fds_loop E pid rest total log
          else
            let a := attempt E log (fd_line E pid fd)
            if a.1 ≠ 0 then (a.1, total, a.2)
            else record_fds_loop E pid rest total a.2

/-- The code of `xcd_process_record_fds` from the label `end` on. -/
def record_fds_end (E : Env R) (total : Nat) (log : List Ev) : Res :=
  let k := fun (log : List Ev) =>
    xcc_util_write_format E log ("    (number of FDs: " ++ toString total ++ ")\n\n")
  if total > 1024 then andThen (xcc_util_write_str E log "    ......\n") k
  else k log

/-- Translation of `xcd_process_record_fds`. -/
def xcd_process_record_fds (E : Env R) (self : xcd_process_t) (log : List Ev) : Res :=
  andThen (xcc_util_write_str E log "open files:\n") fun log =>
    match E.opendir ("/proc/" ++ toString self.pid ++ "/fd") with
    | none => record_fds_end E 0 log
    | some ents =>
      let l := record_fds_loop E self.pid ents 0 log
      if l.1 ≠ 0 then (l.1, l.2.2) else record_fds_end E l.2.1 l.2.2

/-! ## `xcd_process_record_signal_info` -/

/-- Signal number of `SIGILL` (`<signal.h>`). -/
def SIGILL : Int := 4

/-- Value of a little-endian byte sequence, as stored in an integer variable. -/
def le_decode : List Nat → Nat
  | [] => 0
  | b :: bs => b + 256 * le_decode bs

/-- Lower-case hexadecimal digits of a number. -/
def hex (n : Nat) : String := String.mk (Nat.toDigits 16 n)

/-- The conversion `%p` of the C library of the platform: `0x` and the hexadecimal digits. -/
def fmt_p (a : Nat) : String := "0x" ++ hex a

/-- The conversion `%#08x`: width 8, zero padded, with `0x` in front of a non-zero value. -/
def fmt_x08 (v : Nat) : String :=
  if v = 0 then "00000000"
  else "0x" ++ String.mk (List.replicate (6 - (Nat.toDigits 16 v).length) '0') ++ hex v

/-- The buffer `addr_desc` of `xcd_process_record_signal_info`. The variable `instruction`
starts as 0 and receives the bytes that `xcd_util_ptrace_read` stored; the returned count of
that call is not looked at. -/
def signal_addr_desc (E : Env R) (self : xcd_process_t) : String :=
  if E.xcc_util_signal_has_si_addr self.si then
    let addr := self.si.si_addr
    if self.si.si_signo = SIGILL then
      let instruction := le_decode ((E.xcd_util_ptrace_read self.pid addr 4).take 4)
      fmt_p addr ++ " (*pc=" ++ fmt_x08 instruction ++ ")"
    else fmt_p addr
  else "--------"

/-- The buffer `sender_desc` of `xcd_process_record_signal_info`. -/
def signal_sender_desc (E : Env R) (self : xcd_process_t) : String :=
  if E.xcc_util_signal_has_sender self.si self.pid then
    " from pid " ++ toString self.si.si_pid ++ ", uid " ++ toString self.si.si_uid
  else ""

/-- Translation of `xcd_process_record_signal_info`. -/
def xcd_process_record_signal_info (E : Env R) (self : xcd_process_t) (log : List Ev) : Res :=
  xcc_util_write_format E log
    ("signal " ++ toString self.si.si_signo ++ " (" ++ E.xcc_util_get_signame self.si ++
      "), code " ++ toString self.si.si_code ++ " (" ++ E.xcc_util_get_sigcodename self.si ++
      signal_sender_desc E self ++ "), fault addr " ++ signal_addr_desc E self ++ "\n")

/-! ## `xcd_process_record_abort_message` -/

/-- `sizeof(size_t)`, which is also `sizeof(uintptr_t)`. -/
def sizeof_size_t (E : Env R) : Nat := if E.lp64 then 8 else 4

/-- The macro `XCD_PROCESS_LIBC_PATHNAME`. -/
def XCD_PROCESS_LIBC_PATHNAME (E : Env R) : String :=
  if E.lp64 then "/system/lib64/libc.so" else "/system/lib/libc.so"

/-- The macro `XCD_PROCESS_ABORT_MSG_PTR`. -/
def XCD_PROCESS_ABORT_MSG_PTR : String := "__abort_message_ptr"

/-- `isspace` in the C locale. -/
def isspace (c : Nat) : Bool := c = 32 || (9 ≤ c && c ≤ 13)

/-- The text that `%s` prints for a byte buffer: the bytes before the first NUL, each shown
as the character with that code. -/
def c_string (msg : List Nat) : String :=
  String.mk ((msg.takeWhile fun c => c ≠ 0).map Char.ofNat)

/-- The `for` loop of `xcd_process_record_abort_message` over `msg`. -/
def abort_message_format (msg : List Nat) : List Nat :=
  msg.map fun c => if isspace c && c ≠ 32 then 32 else c

/-- The buffer `msg[256 + 1]` after `memset` and a read of `size` bytes that stored `b`. -/
def abort_message_buffer (b : List Nat) (size : Nat) : List Nat :=
  b.take size ++ List.replicate (257 - (b.take size).length) 0

/-- Translation of `xcd_process_record_abort_message`. Next to the status and the write
attempts it returns the remote reads it requested, as pairs of address and length. -/
def xcd_process_record_abort_message (E : Env R) (self : xcd_process_t) (log : List Ev) :
    Res × List (Nat × Nat) :=
  let W := sizeof_size_t E
  let ppp := E.xcd_maps_find_pc (XCD_PROCESS_LIBC_PATHNAME E) XCD_PROCESS_ABORT_MSG_PTR
  if ppp = 0 then ((0, log), [])
  else
    match E.xcd_util_ptrace_read_fully self.pid ppp W with
    | none => ((0, log), [(ppp, W)])
    | some b1 =>
      let pp := le_decode (b1.take W)
      if pp = 0 then ((0, log), [(ppp, W)])
      else
        match E.xcd_util_ptrace_read_fully self.pid pp W with
        | none => ((0, log), [(ppp, W), (pp, W)])
        | some b2 =>
          let p := le_decode (b2.take W)
          if p = 0 then ((0, log), [(ppp, W), (pp, W)])
          else
            match E.xcd_util_ptrace_read_fully self.pid p W with
            | none => ((0, log), [(ppp, W), (pp, W), (p, W)])
            | some b3 =>
              let size := le_decode (b3.take W)
              if size < W + 1 + 1 then ((0, log), [(ppp, W), (pp, W), (p, W)])
              else
                let size := size - (W + 1)
                let size := if size > 256 then 256 else size
                let a := (p + W) % 2 ^ (8 * W)
                match E.xcd_util_ptrace_read_fully self.pid a size with
                | none => ((0, log), [(ppp, W), (pp, W), (p, W), (a, size)])
                | some b4 =>
                  let msg := abort_message_format (abort_message_buffer b4 size)
                  (xcc_util_write_format E log ("Abort message: '" ++ c_string msg ++ "'\n"),
                    [(ppp, W), (pp, W), (p, W), (a, size)])

/-! ## `xcd_process_record_logcat` -/

/-- `NULL != strstr(buf, pid_label)`. -/
def strstr (buf pid_label : String) : Bool := decide (pid_label.toList <:+: buf.toList)

/-- The `while(NULL != fgets(...))` loop of `xcd_process_record_logcat_buffer`. -/
def record_logcat_lines (E : Env R) (with_pid : Bool) (pid_label : String) :
    List String → Int → List Ev → Res
  | [], r, log => (r, log)
  | buf :: rest, r, log =>
    if with_pid || strstr buf pid_label then
      let a := xcc_util_write_str E log buf
      if a.1 ≠ 0 then a else record_logcat_lines E with_pid pid_label rest a.1 a.2
    else record_logcat_lines E with_pid pid_label rest r log

/-- Translation of `xcd_process_record_logcat_buffer`. -/
def xcd_process_record_logcat_buffer (E : Env R) (self : xcd_process_t) (log : List Ev)
    (buffer : String) (lines : Nat) (priority : Char) (api_level : Int) : Res :=
  let with_pid := decide (api_level ≥ 24)
  let pid_filter := if with_pid then "--pid " ++ toString self.pid ++ " " else ""
  let lines := if with_pid then lines else E.scale_lines lines
  let pid_label := if with_pid then "" else " " ++ toString self.pid ++ " "
  let cmd := "/system/bin/logcat -b " ++ buffer ++ " -d -v threadtime -t " ++ toString lines ++
    " " ++ pid_filter ++ "*:" ++ String.singleton priority
  andThen (xcc_util_write_format E log
      ("--------- tail end of log " ++ buffer ++ " (" ++ cmd ++ ")\n")) fun log =>
    match E.popen cmd with
    | none => (0, log)
    | some chunks => record_logcat_lines E with_pid pid_label chunks 0 log

/-- Translation of `xcd_process_record_logcat`. -/
def xcd_process_record_logcat (E : Env R) (self : xcd_process_t) (log : List Ev)
    (logcat_system_lines logcat_events_lines logcat_main_lines : Nat) (api_level : Int) : Res :=
  if logcat_system_lines = 0 ∧ logcat_events_lines = 0 ∧ logcat_main_lines = 0 then (0, log)
  else
    andThen (xcc_util_write_str E log "logcat:\n") fun log =>
    andThen (if logcat_main_lines > 0 then
        xcd_process_record_logcat_buffer E self log "main" logcat_main_lines 'D' api_level
      else (0, log)) fun log =>
    andThen (if logcat_system_lines > 0 then
        xcd_process_record_logcat_buffer E self log "system" logcat_system_lines 'W' api_level
      else (0, log)) fun log =>
    andThen (if logcat_events_lines > 0 then
        xcd_process_record_logcat_buffer E self log "events" logcat_events_lines 'I' api_level
      else (0, log)) fun log =>
    andThen (xcc_util_write_str E log "\n") fun log => (0, log)

/-! ## The thread-name whitelist -/

/-- `strtok_r` with the delimiter `"|"` on the text that is still to be scanned: the token
found, if any, and the text after the delimiter that ended it. -/
def strtok_r (s : List Char) : Option (List Char) × List Char :=
  match s.dropWhile (fun c => c = '|') with
  | [] => (none, [])
  | c :: cs =>
    (some ((c :: cs).takeWhile fun c => c ≠ '|'), ((c :: cs).dropWhile fun c => c ≠ '|').drop 1)

/-- The `while(regex_str)` loop of `xcd_process_build_whitelist_regex`: `re` is the array,
`i` the next free slot. The result of `xcc_b64_decode` goes to `regcomp` without a check:
when it is `NULL`, `regcomp` reads through the null pointer and the dumper is killed there,
which is the result `none`. For a decoded pattern, a successful `regcomp` fills `re[i]` and a
failed one leaves the array as it was. The first argument bounds the number of rounds. -/
def build_whitelist_loop (E : Env R) :
    Nat → Option (List Char) → List Char → List (Option R) → Nat →
      Option (List (Option R) × Nat)
  | 0, _, _, re, i => some (re, i)
  | _ + 1, none, _, re, i => some (re, i)
  | fuel + 1, some regex_str, tmp, re, i =>
    match E.xcc_b64_decode (String.mk regex_str) with
    | none => none
    | some regex_str_decoded =>
      match E.regcomp regex_str_decoded with
      | some c =>
        build_whitelist_loop E fuel (strtok_r tmp).1 (strtok_r tmp).2 (re.set i (some c)) (i + 1)
      | none => build_whitelist_loop E fuel (strtok_r tmp).1 (strtok_r tmp).2 re i

/-- Translation of `xcd_process_build_whitelist_regex`. The second argument is the value of
`*re_cnt` on entry; the result is `none` when the dumper is killed inside the loop, and
otherwise the returned array (`none` for `NULL`) and `*re_cnt` on return. The round bound of
the loop is the length of the string plus one. -/
def xcd_process_build_whitelist_regex (E : Env R) (dump_all_threads_whitelist : Option String)
    (re_cnt : Nat) : Option (Option (List (Option R)) × Nat) :=
  match dump_all_threads_whitelist with
  | none => some (none, re_cnt)
  | some w =>
    if w.toList.length = 0 then some (none, re_cnt)
    else
      let cnt := w.toList.count '|' + 1
      if E.calloc cnt = false then some (none, re_cnt)
      else
        let re : List (Option R) := List.replicate cnt none
        let first := strtok_r w.toList
        match build_whitelist_loop E (w.toList.length + 1) first.1 first.2 re 0 with
        | none => none
        | some l => if l.2 = 0 then some (none, re_cnt) else some (some l.1, l.2)

/-- The `for` loop of `xcd_process_if_need_dump` over the slots `re[0]`, ..., `re[re_cnt - 1]`;
`regexec c tname` stands for `regexec(&re[i], tname, 0, NULL, 0)`. -/
def if_need_dump_loop (regexec : R → String → Int) (tname : String) :
    List (Option R) → Nat → Int
  | _, 0 => 0
  | [], _ + 1 => 0
  | none :: rest, n + 1 => if_need_dump_loop regexec tname rest n
  | some c :: rest, n + 1 =>
    if regexec c tname = 0 then 1 else if_need_dump_loop regexec tname rest n

/-- Translation of `xcd_process_if_need_dump`. -/
def xcd_process_if_need_dump (regexec : R → String → Int) (tname : String)
    (re : Option (List (Option R))) (re_cnt : Nat) : Int :=
  match re with
  | none => 1
  | some slots => if re_cnt = 0 then 1 else if_need_dump_loop regexec tname slots re_cnt

/-! ## `xcd_process_record` -/

/-- The parameters of `xcd_process_record` after `self` and `log_fd`. -/
structure record_args where
  logcat_system_lines : Nat
  logcat_events_lines : Nat
  logcat_main_lines : Nat
  dump_elf_hash : Int
  dump_map : Int
  dump_fds : Int
  dump_all_threads : Int
  dump_all_threads_count_max : Int
  dump_all_threads_whitelist : Option String
  api_level : Int

/-- The body of the first loop of `xcd_process_record` for the crashed thread. -/
def record_crash_thread (E : Env R) (self : xcd_process_t) (a : record_args)
    (thd : xcd_thread_t) (log : List Ev) : Res :=
  andThen (attempt E log (Ev.thread_record_info thd.tid self.pname)) fun log =>
  andThen (xcd_process_record_signal_info E self log) fun log =>
  andThen (xcd_process_record_abort_message E self log).1 fun log =>
  andThen (attempt E log (Ev.thread_record_regs thd.tid)) fun log =>
  andThen (if E.xcd_thread_load_frames thd.tid = 0 then
      andThen (attempt E log (Ev.thread_record_backtrace thd.tid)) fun log =>
      andThen (attempt E log (Ev.thread_record_buildid thd.tid a.dump_elf_hash
        (if E.xcc_util_signal_has_si_addr self.si then self.si.si_addr else 0))) fun log =>
      andThen (attempt E log (Ev.thread_record_stack thd.tid)) fun log =>
      andThen (attempt E log (Ev.thread_record_memory thd.tid)) fun log => (0, log)
    else (0, log)) fun log =>
  andThen (if a.dump_map ≠ 0 then attempt E log Ev.maps_record else (0, log)) fun log =>
  andThen (xcd_process_record_logcat E self log a.logcat_system_lines a.logcat_events_lines
    a.logcat_main_lines a.api_level) fun log =>
  andThen (if a.dump_fds ≠ 0 then xcd_process_record_fds E self log else (0, log)) fun log =>
  andThen (attempt E log (Ev.meminfo_record self.pid)) fun log => (0, log)

/-- The first `TAILQ_FOREACH` of `xcd_process_record`: it stops at the crashed thread. -/
def record_crash_loop (E : Env R) (self : xcd_process_t) (a : record_args) :
    List xcd_thread_t → List Ev → Res
  | [], log => (0, log)
  | thd :: rest, log =>
    if thd.tid = self.crash_tid then record_crash_thread E self a thd log
    else record_crash_loop E self a rest log

/-- The local variables of `xcd_process_record` that the second loop changes. -/
structure loop_state where
  r : Int
  log : List Ev
  thd_dumped : Int
  thd_matched_regex : Int
  thd_ignored_by_limit : Int
  deriving DecidableEq, Repr

/-- The writes of the second loop of `xcd_process_record` for one thread. -/
def record_other_thread (E : Env R) (self : xcd_process_t) (thd : xcd_thread_t)
    (log : List Ev) : Res :=
  andThen (xcc_util_write_str E log E.XCC_UTIL_THREAD_SEP) fun log =>
  andThen (attempt E log (Ev.thread_record_info thd.tid self.pname)) fun log =>
  andThen (attempt E log (Ev.thread_record_regs thd.tid)) fun log =>
  if E.xcd_thread_load_frames thd.tid = 0 then
    andThen (attempt E log (Ev.thread_record_backtrace thd.tid)) fun log =>
    andThen (attempt E log (Ev.thread_record_stack thd.tid)) fun log => (0, log)
  else (0, log)

/-- The second `TAILQ_FOREACH` of `xcd_process_record`. A failed write leaves the loop with
that status in `r` (the `goto end`), the counters being as they were at the jump. -/
def record_others_loop (E : Env R) (self : xcd_process_t) (re : Option (List (Option R)))
    (re_cnt : Nat) (dump_all_threads_count_max : Int) :
    List xcd_thread_t → loop_state → loop_state
  | [], st => st
  | thd :: rest, st =>
    if thd.tid ≠ self.crash_tid then
      if re.isSome ∧ re_cnt > 0 ∧ xcd_process_if_need_dump E.regexec thd.tname re re_cnt = 0 then
        record_others_loop E self re re_cnt dump_all_threads_count_max rest st
      else
        let st := { st with thd_matched_regex := st.thd_matched_regex + 1 }
        if dump_all_threads_count_max > 0 ∧ st.thd_dumped ≥ dump_all_threads_count_max then
          record_others_loop E self re re_cnt dump_all_threads_count_max rest
            { st with thd_ignored_by_limit := st.thd_ignored_by_limit + 1 }
        else
          let w := record_other_thread E self thd st.log
          if w.1 ≠ 0 then { st with r := w.1, log := w.2 }
          else
            record_others_loop E self re re_cnt dump_all_threads_count_max rest
              { st with r := w.1, log := w.2, thd_dumped := st.thd_dumped + 1 }
    else record_others_loop E self re re_cnt dump_all_threads_count_max rest st

/-- The writes of the summary of `xcd_process_record` from the total line on. -/
def record_summary_lines (E : Env R) (self : xcd_process_t) (re : Option (List (Option R)))
    (re_cnt : Nat) (dump_all_threads_count_max : Int) (st : loop_state) (log : List Ev) : Res :=
  andThen (xcc_util_write_format E log
    ("total threads (exclude the crashed thread): " ++ toString (self.nthds - 1) ++
      "\n")) fun log =>
  andThen (if re.isSome ∧ re_cnt > 0 then
      xcc_util_write_format E log
        ("threads matched whitelist: " ++ toString st.thd_matched_regex ++ "\n")
    else (0, log)) fun log =>
  andThen (if dump_all_threads_count_max > 0 then
      xcc_util_write_format E log
        ("threads ignored by max count limit: " ++ toString st.thd_ignored_by_limit ++
          "\n")
    else (0, log)) fun log =>
  andThen (xcc_util_write_format E log
    ("dumped threads: " ++ toString st.thd_dumped ++ "\n")) fun log =>
  xcc_util_write_str E log E.XCC_UTIL_THREAD_END

/-- The code of `xcd_process_record` from the label `end` on. -/
def record_summary (E : Env R) (self : xcd_process_t) (re : Option (List (Option R)))
    (re_cnt : Nat) (dump_all_threads_count_max : Int) (st : loop_state) : Res :=
  if self.nthds > 1 then
    if st.thd_dumped = 0 then
      andThen (xcc_util_write_str E st.log E.XCC_UTIL_THREAD_SEP)
        (record_summary_lines E self re re_cnt dump_all_threads_count_max st)
    else record_summary_lines E self re re_cnt dump_all_threads_count_max st st.log
  else (st.r, st.log)

/-- The code of `xcd_process_record` after the call of `xcd_process_build_whitelist_regex`
has returned `re` and `re_cnt`: the second loop and the summary; `log` holds the attempts of
the first loop. -/
def record_all_threads (E : Env R) (self : xcd_process_t) (a : record_args)
    (re : Option (List (Option R))) (re_cnt : Nat) (log : List Ev) : Res :=
  record_summary E self re re_cnt a.dump_all_threads_count_max
    (record_others_loop E self re re_cnt a.dump_all_threads_count_max self.thds
      ⟨0, log, 0, 0, 0⟩)

/-- Translation of `xcd_process_record`; `log` holds the attempts made on `log_fd` before.
The result is `none` when the dumper is killed inside
`xcd_process_build_whitelist_regex`, and the returned status with the attempts otherwise. -/
def xcd_process_record (E : Env R) (self : xcd_process_t) (a : record_args)
    (log : List Ev) : Option Res :=
  let c := record_crash_loop E self a self.thds log
  if c.1 ≠ 0 then some c
  else if a.dump_all_threads = 0 then some (0, c.2)
  else
    match xcd_process_build_whitelist_regex E a.dump_all_threads_whitelist 0 with
    | none => none
    | some w => some (record_all_threads E self a w.1 w.2 c.2)

/-! ## `xcd_process_create` -/

/-- Modelled from the spec: `xcd_thread_init` (`xcd_thread.c`) is not part of this file. A
Thread Handle starts with its identity (tid); its display name is loaded later. -/
def xcd_thread_init (_pid tid : Int) : xcd_thread_t := { tid := tid, tname := "" }

/-- The `readdir` loop of `xcd_process_load_threads`: `k` is the number of `malloc` calls made
so far; the result is the status, the queue and `nthds`. -/
def load_threads_loop (E : Env R) (pid : Int) :
    List String → Nat → List xcd_thread_t → Nat → Int × List xcd_thread_t × Nat
  | [], _, thds, nthds => (0, thds, nthds)
  | d_name :: rest, k, thds, nthds =>
    if d_name = "." then load_threads_loop E pid rest k thds nthds
    else if d_name = ".." then load_threads_loop E pid rest k thds nthds
    else
      match E.xcc_util_atoi d_name with
      | none => load_threads_loop E pid rest k thds nthds
      | some tid =>
        if E.malloc k = false then (E.XCC_ERRNO_NOMEM, thds, nthds)
        else
          load_threads_loop E pid rest (k + 1) (thds ++ [xcd_thread_init pid tid]) (nthds + 1)

/-- Translation of `xcd_process_load_threads`; `k` is the number of `malloc` calls made before. -/
def xcd_process_load_threads (E : Env R) (self : xcd_process_t) (k : Nat) :
    Int × xcd_process_t :=
  match E.opendir ("/proc/" ++ toString self.pid ++ "/task") with
  | none => (E.XCC_ERRNO_SYS, self)
  | some ents =>
    let l := load_threads_loop E self.pid ents k self.thds self.nthds
    (l.1, { self with thds := l.2.1, nthds := l.2.2 })

/-- Translation of `xcd_process_create`: the status and the object left in `*self` (`none`
when its `malloc` failed). `pname = NULL` is the empty string. -/
def xcd_process_create (E : Env R) (pid crash_tid : Int) (si : siginfo_t) :
    Int × Option xcd_process_t :=
  if E.malloc 0 = false then (E.XCC_ERRNO_NOMEM, none)
  else
    let self : xcd_process_t :=
      { pid := pid, pname := "", crash_tid := crash_tid, si := si, thds := [], nthds := 0 }
    let l := xcd_process_load_threads E self 1
    if l.1 ≠ 0 then (l.1, some l.2)
    else if l.2.thds.any (fun thd => thd.tid = l.2.crash_tid) then (0, some l.2)
    else (E.XCC_ERRNO_NOTFND, some l.2)

/-- Translation of `xcd_process_get_number_of_threads`. -/
def xcd_process_get_number_of_threads (self : xcd_process_t) : Nat := self.nthds

/-! ## Notions used in the statements -/

/-- The descriptors of a listing of `/proc/<pid>/fd`: the entries whose name
`xcc_util_atoi` reads as a number that is not negative, in listing order. -/
def fd_entries (E : Env R) (ents : List String) : List Int :=
  ents.filterMap fun d_name =>
    match E.xcc_util_atoi d_name with
    | some fd => if fd < 0 then none else some fd
    | none => none

/-- The threads that the second loop of `xcd_process_record` does not skip: those that are
not the crashed thread and that the whitelist check lets through, in queue order. -/
def eligible_threads (regexec : R → String → Int) (crash_tid : Int)
    (re : Option (List (Option R))) (re_cnt : Nat) (thds : List xcd_thread_t) :
    List xcd_thread_t :=
  thds.filter fun thd =>
    decide (thd.tid ≠ crash_tid ∧
      ¬ (re.isSome ∧ re_cnt > 0 ∧ xcd_process_if_need_dump regexec thd.tname re re_cnt = 0))

/-- The section of one secondary thread in the report: separator, identity block, registers
and, when the frames could be loaded, backtrace and stack. -/
def thread_section (E : Env R) (self : xcd_process_t) (thd : xcd_thread_t) : List Ev :=
  [Ev.text E.XCC_UTIL_THREAD_SEP, Ev.thread_record_info thd.tid self.pname,
    Ev.thread_record_regs thd.tid] ++
  (if E.xcd_thread_load_frames thd.tid = 0 then
    [Ev.thread_record_backtrace thd.tid, Ev.thread_record_stack thd.tid] else [])

/-- Number of threads that the second loop dumps out of `m` threads it does not skip, when
`d` threads are dumped already and the ceiling is `c`. -/
def quota (c d : Int) (m : Nat) : Nat := if c > 0 then min m (c - d).toNat else m

/-- The non-empty pieces of a whitelist string between its `|` separators, in order. -/
def whitelist_pieces (w : List Char) : List (List Char) :=
  (w.splitOn '|').filter fun piece => decide (piece ≠ [])

/-- The patterns of a whitelist string that compile: each non-empty piece is decoded and
compiled on its own, a piece for which decoding or `regcomp` fails is left out. -/
def compiled_patterns (E : Env R) (w : String) : List R :=
  (whitelist_pieces w.toList).filterMap fun piece =>
    (E.xcc_b64_decode (String.mk piece)).bind E.regcomp

/-- Whether `xcc_b64_decode` succeeds on every non-empty piece of a whitelist string. -/
def all_decode (E : Env R) (w : String) : Bool :=
  (whitelist_pieces w.toList).all fun piece => (E.xcc_b64_decode (String.mk piece)).isSome

/-- One round of the `while(regex_str)` loop on the pair of the array and the next free
slot, for the token `piece`. -/
def whitelist_step (E : Env R) (st : List (Option R) × Nat) (piece : List Char) :
    List (Option R) × Nat :=
  match (E.xcc_b64_decode (String.mk piece)).bind E.regcomp with
  | some c => (st.1.set st.2 (some c), st.2 + 1)
  | none => st

/-- The rounds of the `while(regex_str)` loop for the tokens `pieces`, one after the other;
`none` when a token does not decode. -/
def whitelist_rounds (E : Env R) :
    List (List Char) → List (Option R) × Nat → Option (List (Option R) × Nat)
  | [], st => some st
  | piece :: rest, st =>
    match E.xcc_b64_decode (String.mk piece) with
    | none => none
    | some _ => whitelist_rounds E rest (whitelist_step E st piece)

/-- The thread ids of a listing of `/proc/<pid>/task`: the entries other than `.` and `..`
whose name `xcc_util_atoi` reads as a number, in listing order. -/
def task_tids (E : Env R) (ents : List String) : List Int :=
  ents.filterMap fun d_name =>
    if d_name = "." ∨ d_name = ".." then none else E.xcc_util_atoi d_name

/-- A routine started with the attempts `log` and ended with `res` stopped at its first
failed write: it only added attempts, every attempt it added before its last one succeeded,
a non-zero status is the status of its last attempt, and with status 0 every attempt it
added succeeded. -/
def stops_at_failure (E : Env R) (log : List Ev) (res : Res) : Prop :=
  log <+: res.2 ∧
  (∀ k, log.length ≤ k → k + 1 < res.2.length → E.write_status k = 0) ∧
  (res.1 ≠ 0 → log.length < res.2.length ∧ E.write_status (res.2.length - 1) = res.1) ∧
  (res.1 = 0 → ∀ k, log.length ≤ k → k < res.2.length → E.write_status k = 0)

/-- The threads that `xcd_process_record` dumps in its second loop when every write
succeeds and the whitelist builder returned `re` and `re_cnt`: of the threads the loop does
not skip, the first ones up to the ceiling. -/
def dumped_threads (E : Env R) (self : xcd_process_t) (a : record_args)
    (re : Option (List (Option R))) (re_cnt : Nat) : List xcd_thread_t :=
  (eligible_threads E.regexec self.crash_tid re re_cnt self.thds).take
    (quota a.dump_all_threads_count_max 0
      (eligible_threads E.regexec self.crash_tid re re_cnt self.thds).length)

/-- The number of threads that the second loop of `xcd_process_record` does not skip. -/
def matched_count (E : Env R) (self : xcd_process_t)
    (re : Option (List (Option R))) (re_cnt : Nat) : Nat :=
  (eligible_threads E.regexec self.crash_tid re re_cnt self.thds).length

/-- A decimal reader used in the examples: an optional minus sign and digits. -/
def sample_atoi (s : String) : Option Int :=
  let digits : List Char → Option Nat := fun cs =>
    if cs.isEmpty || !cs.all Char.isDigit then none
    else some (cs.foldl (fun (n : Nat) (c : Char) => 10 * n + (c.toNat - 48)) 0)
  match s.toList with
  | '-' :: cs => (digits cs).map fun n => -(n : Int)
  | cs => (digits cs).map fun n => (n : Int)

/-- An environment for the examples: every write succeeds, nothing can be read from the
crashed process, the directories list `.`, `..`, `1`, `2`, `3` and `self`, every pattern
compiles to itself and matches the names that contain it. -/
def sample_env : Env String where
  write_status := fun _ => 0
  lp64 := true
  XCC_UTIL_THREAD_SEP := "--- --- ---\n"
  XCC_UTIL_THREAD_END := "+++ +++ +++\n"
  XCC_ERRNO_SYS := 1001
  XCC_ERRNO_NOMEM := 1003
  XCC_ERRNO_NOTFND := 1006
  opendir := fun _ => some [".", "..", "1", "2", "3", "self"]
  xcc_util_atoi := sample_atoi
  readlink := fun _ => (9, "/dev/null")
  malloc := fun _ => true
  calloc := fun _ => true
  xcd_thread_load_frames := fun _ => 0
  xcd_maps_find_pc := fun _ _ => 0
  xcd_util_ptrace_read := fun _ _ _ => []
  xcd_util_ptrace_read_fully := fun _ _ _ => none
  xcc_util_signal_has_si_addr := fun _ => true
  xcc_util_signal_has_sender := fun _ _ => false
  xcc_util_get_signame := fun _ => "SIGILL"
  xcc_util_get_sigcodename := fun _ => "ILL_ILLOPC"
  popen := fun _ => none
  scale_lines := fun n => n * 6 / 5
  xcc_b64_decode := fun s => some s
  regcomp := fun s => some s
  regexec := fun c tname => if strstr tname c then 0 else 1

/-- The environment of the examples with 1300 entries named `7` in every directory. -/
def crowded_env : Env String :=
  { sample_env with opendir := fun _ => some (List.replicate 1300 "7") }

/-- The environment of the examples from the write attempt number `k` on: that attempt and
all later ones fail with status 5. -/
def broken_env (k : Nat) : Env String :=
  { sample_env with write_status := fun i => if k ≤ i then 5 else 0 }

/-- The environment of the examples with a `regcomp` that rejects the pattern `?`. -/
def picky_env : Env String :=
  { sample_env with regcomp := fun s => if s = "?" then none else some s }

/-- The environment of the examples with an `xcc_b64_decode` that returns `NULL` for the
piece `?`. -/
def undecodable_env : Env String :=
  { sample_env with xcc_b64_decode := fun s => if s = "?" then none else some s }

/-- Little-endian bytes of a 64-bit word. -/
def le_bytes8 (v : Nat) : List Nat := (List.range 8).map fun i => v / 256 ^ i % 256

/-- The environment of the examples with an abort message in the crashed process: the
symbol is at 4096 and holds 8192, where the pointer 12288 to the record is stored; the
record declares the size `8 + 5 + 1` and holds `lost` and a tab. -/
def abort_env : Env String :=
  { sample_env with
    xcd_maps_find_pc := fun _ _ => 4096
    xcd_util_ptrace_read_fully := fun _ addr len =>
      if addr = 4096 ∧ len = 8 then some (le_bytes8 8192)
      else if addr = 8192 ∧ len = 8 then some (le_bytes8 12288)
      else if addr = 12288 ∧ len = 8 then some (le_bytes8 14)
      else if addr = 12296 ∧ len = 5 then some [108, 111, 115, 116, 9]
      else none }

/-- The environment of the examples in which the write attempt number `k` fails with
status 5 and every other one succeeds. -/
def failing_env (k : Nat) : Env String :=
  { sample_env with write_status := fun i => if i = k then 5 else 0 }

/-- A crashed process for the examples: three threads, the first one crashed with `SIGILL`. -/
def sample_process : xcd_process_t where
  pid := 100
  pname := "app"
  crash_tid := 1
  si := { si_signo := 4, si_code := 1, si_addr := 4096, si_pid := 0, si_uid := 0 }
  thds := [⟨1, "main"⟩, ⟨2, "worker-1"⟩, ⟨3, "worker-2"⟩]
  nthds := 3

/-- A crashed process with eleven threads for the examples: thread 1 crashed. -/
def sample_process_11 : xcd_process_t :=
  { sample_process with
    thds := (List.range 11).map fun i => ⟨(i : Int) + 1, "t"⟩
    nthds := 11 }

/-- Arguments for the examples: no logcat, no map, no descriptor listing, all threads,
no ceiling, no whitelist. -/
def sample_args : record_args where
  logcat_system_lines := 0
  logcat_events_lines := 0
  logcat_main_lines := 0
  dump_elf_hash := 0
  dump_map := 0
  dump_fds := 0
  dump_all_threads := 1
  dump_all_threads_count_max := 0
  dump_all_threads_whitelist := none
  api_level := 29

/-! ## Lemmas: runs in which every write succeeds -/

theorem attempt_ok (E : Env R) (hw : ∀ k, E.write_status k = 0) (log : List Ev) (e : Ev) :
    attempt E log e = (0, log ++ [e]) := by
  simp [attempt, hw]

theorem andThen_ok (log : List Ev) (k : List Ev → Res) : andThen (0, log) k = k log := by
  simp [andThen]

theorem record_other_thread_ok (E : Env R) (self : xcd_process_t) (thd : xcd_thread_t)
    (log : List Ev) (hw : ∀ k, E.write_status k = 0) :
    record_other_thread E self thd log = (0, log ++ thread_section E self thd) := by
  unfold record_other_thread thread_section
  rw [xcc_util_write_str, attempt_ok E hw, andThen_ok, attempt_ok E hw, andThen_ok,
    attempt_ok E hw, andThen_ok]
  by_cases h : E.xcd_thread_load_frames thd.tid = 0
  · rw [if_pos h, if_pos h, attempt_ok E hw, andThen_ok, attempt_ok E hw, andThen_ok]
    simp
  · rw [if_neg h, if_neg h]
    simp

theorem record_others_loop_ok (E : Env R) (self : xcd_process_t)
    (re : Option (List (Option R))) (re_cnt : Nat) (c : Int)
    (hw : ∀ k, E.write_status k = 0) :
    ∀ (thds : List xcd_thread_t) (st : loop_state), st.r = 0 →
      record_others_loop E self re re_cnt c thds st =
        { r := 0
          log := st.log ++ ((eligible_threads E.regexec self.crash_tid re re_cnt thds).take
            (quota c st.thd_dumped
              (eligible_threads E.regexec self.crash_tid re re_cnt thds).length)).flatMap
            (thread_section E self)
          thd_dumped := st.thd_dumped + quota c st.thd_dumped
            (eligible_threads E.regexec self.crash_tid re re_cnt thds).length
          thd_matched_regex := st.thd_matched_regex +
            (eligible_threads E.regexec self.crash_tid re re_cnt thds).length
          thd_ignored_by_limit := st.thd_ignored_by_limit +
            ((eligible_threads E.regexec self.crash_tid re re_cnt thds).length -
              quota c st.thd_dumped
                (eligible_threads E.regexec self.crash_tid re re_cnt thds).length : Nat) } := by
  intro thds
  induction thds with
  | nil =>
    intro st hr
    cases st
    simp_all [record_others_loop, eligible_threads, quota]
  | cons thd rest ih =>
    intro st hr
    unfold record_others_loop
    by_cases h1 : thd.tid ≠ self.crash_tid
    · rw [if_pos h1]
      by_cases h2 : re.isSome ∧ re_cnt > 0 ∧
          xcd_process_if_need_dump E.regexec thd.tname re re_cnt = 0
      · rw [if_pos h2, ih st hr]
        have : eligible_threads E.regexec self.crash_tid re re_cnt (thd :: rest) =
            eligible_threads E.regexec self.crash_tid re re_cnt rest :=
          List.filter_cons_of_neg (by rw [decide_eq_true_eq]; exact fun h => h.2 h2)
        rw [this]
      · rw [if_neg h2]
        have he : eligible_threads E.regexec self.crash_tid re re_cnt (thd :: rest) =
            thd :: eligible_threads E.regexec self.crash_tid re re_cnt rest :=
          List.filter_cons_of_pos (decide_eq_true ⟨h1, h2⟩)
        rw [he]
        simp only []
        by_cases h3 : c > 0 ∧ st.thd_dumped ≥ c
        · rw [if_pos h3, ih ⟨st.r, st.log, st.thd_dumped, st.thd_matched_regex + 1,
            st.thd_ignored_by_limit + 1⟩ hr]
          have q0 : ∀ m, quota c st.thd_dumped m = 0 := by
            intro m; unfold quota; rw [if_pos h3.1]; omega
          simp only [q0, List.length_cons]
          simp
          omega
        · rw [if_neg h3, record_other_thread_ok E self thd st.log hw]
          simp only [ne_eq, not_true_eq_false, if_false]
          rw [ih ⟨0, st.log ++ thread_section E self thd, st.thd_dumped + 1,
            st.thd_matched_regex + 1, st.thd_ignored_by_limit⟩ rfl]
          have q1 : ∀ m, quota c st.thd_dumped (m + 1) = quota c (st.thd_dumped + 1) m + 1 := by
            intro m; unfold quota
            by_cases hc : c > 0
            · rw [if_pos hc, if_pos hc]; omega
            · rw [if_neg hc, if_neg hc]
          simp only [List.length_cons, q1, List.take_succ_cons, List.flatMap_cons]
          simp
          omega
    · rw [if_neg h1, ih st hr]
      have : eligible_threads E.regexec self.crash_tid re re_cnt (thd :: rest) =
          eligible_threads E.regexec self.crash_tid re re_cnt rest :=
        List.filter_cons_of_neg (by rw [decide_eq_true_eq]; exact fun h => h1 h.1)
      rw [this]

theorem andThen_fst (a : Res) (k : List Ev → Res) (ha : a.1 = 0)
    (hk : ∀ log, (k log).1 = 0) : (andThen a k).1 = 0 := by
  unfold andThen
  rw [if_neg (by simpa using ha)]
  exact hk _

theorem attempt_fst (E : Env R) (hw : ∀ k, E.write_status k = 0) (log : List Ev) (e : Ev) :
    (attempt E log e).1 = 0 := by
  simp [attempt, hw]

theorem record_abort_message_fst (E : Env R) (self : xcd_process_t) (log : List Ev)
    (hw : ∀ k, E.write_status k = 0) :
    (xcd_process_record_abort_message E self log).1.1 = 0 := by
  unfold xcd_process_record_abort_message
  simp only []
  split
  · rfl
  · split
    · rfl
    · split
      · rfl
      · split
        · rfl
        · split
          · rfl
          · split
            · rfl
            · split
              · rfl
              · split
                · rfl
                · exact attempt_fst E hw _ _

theorem record_logcat_lines_fst (E : Env R) (with_pid : Bool) (pid_label : String)
    (hw : ∀ k, E.write_status k = 0) :
    ∀ (chunks : List String) (log : List Ev),
      (record_logcat_lines E with_pid pid_label chunks 0 log).1 = 0 := by
  intro chunks
  induction chunks with
  | nil => intro log; rfl
  | cons buf rest ih =>
    intro log
    unfold record_logcat_lines
    split
    · rw [xcc_util_write_str, attempt_ok E hw]
      simp only [ne_eq, not_true_eq_false, if_false]
      exact ih _
    · exact ih _

theorem record_logcat_buffer_fst (E : Env R) (self : xcd_process_t) (log : List Ev)
    (buffer : String) (lines : Nat) (priority : Char) (api_level : Int)
    (hw : ∀ k, E.write_status k = 0) :
    (xcd_process_record_logcat_buffer E self log buffer lines priority api_level).1 = 0 := by
  unfold xcd_process_record_logcat_buffer
  simp only []
  apply andThen_fst
  · exact attempt_fst E hw _ _
  · intro log
    split
    · rfl
    · exact record_logcat_lines_fst E _ _ hw _ _

theorem record_logcat_fst (E : Env R) (self : xcd_process_t) (log : List Ev)
    (s e m : Nat) (api_level : Int) (hw : ∀ k, E.write_status k = 0) :
    (xcd_process_record_logcat E self log s e m api_level).1 = 0 := by
  unfold xcd_process_record_logcat
  split
  · rfl
  · apply andThen_fst
    · exact attempt_fst E hw _ _
    · intro log
      apply andThen_fst
      · split
        · exact record_logcat_buffer_fst E self _ _ _ _ _ hw
        · rfl
      · intro log
        apply andThen_fst
        · split
          · exact record_logcat_buffer_fst E self _ _ _ _ _ hw
          · rfl
        · intro log
          apply andThen_fst
          · split
            · exact record_logcat_buffer_fst E self _ _ _ _ _ hw
            · rfl
          · intro log
            apply andThen_fst
            · exact attempt_fst E hw _ _
            · intro log; rfl

theorem record_fds_loop_fst (E : Env R) (pid : Int) (hw : ∀ k, E.write_status k = 0) :
    ∀ (ents : List String) (total : Nat) (log : List Ev),
      (record_fds_loop E pid ents total log).1 = 0 := by
  intro ents
  induction ents with
  | nil => intro total log; rfl
  | cons d rest ih =>
    intro total log
    unfold record_fds_loop
    split
    · exact ih _ _
    · split
      · exact ih _ _
      · split
        · exact ih _ _
        · split
          · exact ih _ _
          · split
            · exact ih _ _
            · simp only []
              split
              · exact ih _ _
              · rw [attempt_ok E hw]
                simp only [ne_eq, not_true_eq_false, if_false]
                exact ih _ _

theorem record_fds_fst (E : Env R) (self : xcd_process_t) (log : List Ev)
    (hw : ∀ k, E.write_status k = 0) : (xcd_process_record_fds E self log).1 = 0 := by
  unfold xcd_process_record_fds
  apply andThen_fst
  · exact attempt_fst E hw _ _
  · intro log
    have hend : ∀ total log, (record_fds_end E total log).1 = 0 := by
      intro total log
      unfold record_fds_end
      simp only []
      split
      · apply andThen_fst
        · exact attempt_fst E hw _ _
        · intro log; exact attempt_fst E hw _ _
      · exact attempt_fst E hw _ _
    split
    · exact hend _ _
    · simp only []
      rw [if_neg (by simpa using record_fds_loop_fst E self.pid hw _ _ _)]
      exact hend _ _

theorem record_crash_thread_fst (E : Env R) (self : xcd_process_t) (a : record_args)
    (thd : xcd_thread_t) (log : List Ev) (hw : ∀ k, E.write_status k = 0) :
    (record_crash_thread E self a thd log).1 = 0 := by
  unfold record_crash_thread
  apply andThen_fst
  · exact attempt_fst E hw _ _
  · intro log
    apply andThen_fst
    · exact attempt_fst E hw _ _
    · intro log
      apply andThen_fst
      · exact record_abort_message_fst E self log hw
      · intro log
        apply andThen_fst
        · exact attempt_fst E hw _ _
        · intro log
          apply andThen_fst
          · split
            · apply andThen_fst
              · exact attempt_fst E hw _ _
              · intro log
                apply andThen_fst
                · exact attempt_fst E hw _ _
                · intro log
                  apply andThen_fst
                  · exact attempt_fst E hw _ _
                  · intro log
                    apply andThen_fst
                    · exact attempt_fst E hw _ _
                    · intro log; rfl
            · rfl
          · intro log
            apply andThen_fst
            · split
              · exact attempt_fst E hw _ _
              · rfl
            · intro log
              apply andThen_fst
              · exact record_logcat_fst E self _ _ _ _ _ hw
              · intro log
                apply andThen_fst
                · split
                  · exact record_fds_fst E self _ hw
                  · rfl
                · intro log
                  apply andThen_fst
                  · exact attempt_fst E hw _ _
                  · intro log; rfl

theorem record_crash_loop_fst (E : Env R) (self : xcd_process_t) (a : record_args)
    (hw : ∀ k, E.write_status k = 0) :
    ∀ (thds : List xcd_thread_t) (log : List Ev),
      (record_crash_loop E self a thds log).1 = 0 := by
  intro thds
  induction thds with
  | nil => intro log; rfl
  | cons thd rest ih =>
    intro log
    unfold record_crash_loop
    split
    · exact record_crash_thread_fst E self a thd log hw
    · exact ih _

theorem fd_entries_cons_skip (E : Env R) (d : String) (rest : List String)
    (h : E.xcc_util_atoi d = none) : fd_entries E (d :: rest) = fd_entries E rest := by
  simp [fd_entries, h]

theorem fd_entries_cons_neg (E : Env R) (d : String) (rest : List String) (fd : Int)
    (h : E.xcc_util_atoi d = some fd) (hneg : fd < 0) :
    fd_entries E (d :: rest) = fd_entries E rest := by
  simp [fd_entries, h, hneg]

theorem fd_entries_cons_keep (E : Env R) (d : String) (rest : List String) (fd : Int)
    (h : E.xcc_util_atoi d = some fd) (hneg : ¬ fd < 0) :
    fd_entries E (d :: rest) = fd :: fd_entries E rest := by
  simp [fd_entries, h, hneg]

theorem record_fds_loop_ok (E : Env R) (pid : Int) (hw : ∀ k, E.write_status k = 0)
    (hatoi : E.xcc_util_atoi "" = none ∧ E.xcc_util_atoi "." = none ∧
      E.xcc_util_atoi ".." = none) :
    ∀ (ents : List String) (total : Nat) (log : List Ev),
      record_fds_loop E pid ents total log =
        (0, total + (fd_entries E ents).length,
          log ++ ((fd_entries E ents).take (1024 - total)).map (fd_line E pid)) := by
  intro ents
  induction ents with
  | nil => intro total log; simp [record_fds_loop, fd_entries]
  | cons d rest ih =>
    intro total log
    unfold record_fds_loop
    by_cases h0 : d.toList.head? = none
    · have hd : d = "" := by
        cases d with
        | mk l => cases l with
          | nil => rfl
          | cons c cs => simp at h0
      rw [if_pos h0, ih, fd_entries_cons_skip E d rest (hd ▸ hatoi.1)]
    · rw [if_neg h0]
      by_cases h1 : d = "."
      · rw [if_pos h1, ih, fd_entries_cons_skip E d rest (h1 ▸ hatoi.2.1)]
      · rw [if_neg h1]
        by_cases h2 : d = ".."
        · rw [if_pos h2, ih, fd_entries_cons_skip E d rest (h2 ▸ hatoi.2.2)]
        · rw [if_neg h2]
          cases h3 : E.xcc_util_atoi d with
          | none => simp only []; rw [ih, fd_entries_cons_skip E d rest h3]
          | some fd =>
            simp only []
            by_cases h4 : fd < 0
            · rw [if_pos h4, ih, fd_entries_cons_neg E d rest fd h3 h4]
            · rw [if_neg h4, fd_entries_cons_keep E d rest fd h3 h4]
              by_cases h5 : total + 1 > 1024
              · rw [if_pos h5, ih]
                have e1 : 1024 - (total + 1) = 0 := by omega
                have e2 : 1024 - total = 0 := by omega
                simp [e1, e2]
                omega
              · rw [if_neg h5, attempt_ok E hw]
                simp only [ne_eq, not_true_eq_false, if_false]
                rw [ih]
                have e2 : 1024 - total = (1024 - (total + 1)) + 1 := by omega
                rw [e2, List.take_succ_cons]
                simp
                omega


/-! ## Lemmas: the whitelist string -/

theorem whitelist_pieces_nil : whitelist_pieces [] = [] := by
  simp [whitelist_pieces]

theorem whitelist_pieces_bar (cs : List Char) :
    whitelist_pieces ('|' :: cs) = whitelist_pieces cs := by
  simp [whitelist_pieces, List.splitOn, List.splitOnP_cons]

theorem whitelist_pieces_dropWhile (s : List Char) :
    whitelist_pieces (s.dropWhile fun c => c = '|') = whitelist_pieces s := by
  induction s with
  | nil => rfl
  | cons c cs ih =>
    by_cases h : c = '|'
    · subst h
      rw [whitelist_pieces_bar, List.dropWhile_cons_of_pos (by simp), ih]
    · rw [List.dropWhile_cons_of_neg (by simpa using h)]

theorem dropWhile_head_false {α : Type} (p : α → Bool) :
    ∀ (l : List α) (d : α) (ds : List α), l.dropWhile p = d :: ds → p d = false := by
  intro l
  induction l with
  | nil => intro d ds h; simp at h
  | cons a l ih =>
    intro d ds h
    by_cases hp : p a = true
    · rw [List.dropWhile_cons_of_pos hp] at h
      exact ih d ds h
    · rw [List.dropWhile_cons_of_neg hp] at h
      injection h with h1 h2
      subst h1
      simpa using hp

theorem whitelist_pieces_token (c : Char) (cs : List Char) (h : c ≠ '|') :
    whitelist_pieces (c :: cs) =
      ((c :: cs).takeWhile fun c => c ≠ '|') ::
        whitelist_pieces (((c :: cs).dropWhile fun c => c ≠ '|').drop 1) := by
  have hsplit := List.takeWhile_append_dropWhile (fun c => decide (c ≠ '|')) (c :: cs)
  have htw : ∀ x ∈ (c :: cs).takeWhile (fun c => decide (c ≠ '|')), ¬ ((x == '|') = true) := by
    intro x hx
    have := List.mem_takeWhile_imp hx
    simpa using this
  have hne : (c :: cs).takeWhile (fun c => decide (c ≠ '|')) ≠ [] := by
    rw [List.takeWhile_cons_of_pos (by simpa using h)]
    simp
  cases hd : (c :: cs).dropWhile (fun c => decide (c ≠ '|')) with
  | nil =>
    rw [hd, List.append_nil] at hsplit
    have h1 : (c :: cs).splitOn '|' = [c :: cs] := by
      apply List.splitOnP_eq_single
      intro x hx
      rw [← hsplit] at hx
      exact htw x hx
    rw [hsplit]
    simp [whitelist_pieces, h1]
  | cons d ds =>
    have hd0 : d = '|' := by
      have := dropWhile_head_false (fun c => decide (c ≠ '|')) (c :: cs) d ds hd
      simpa using this
    subst hd0
    rw [hd] at hsplit
    have h1 : (c :: cs).splitOn '|' =
        (c :: cs).takeWhile (fun c => decide (c ≠ '|')) :: ds.splitOn '|' := by
      conv_lhs => rw [← hsplit]
      exact List.splitOnP_first _ _ htw '|' (by simp) ds
    unfold whitelist_pieces
    rw [h1, List.filter_cons_of_pos (by simpa using hne)]
    simp

theorem strtok_r_none (s : List Char) (h : s.dropWhile (fun c => decide (c = '|')) = []) :
    strtok_r s = (none, []) ∧ whitelist_pieces s = [] := by
  constructor
  · unfold strtok_r; rw [h]
  · rw [← whitelist_pieces_dropWhile, h, whitelist_pieces_nil]

theorem strtok_r_some (s : List Char) (c : Char) (cs : List Char)
    (h : s.dropWhile (fun c => decide (c = '|')) = c :: cs) :
    strtok_r s = (some ((c :: cs).takeWhile fun c => c ≠ '|'),
        ((c :: cs).dropWhile fun c => c ≠ '|').drop 1) ∧
      whitelist_pieces s = ((c :: cs).takeWhile fun c => c ≠ '|') ::
        whitelist_pieces (((c :: cs).dropWhile fun c => c ≠ '|').drop 1) ∧
      (((c :: cs).dropWhile fun c => decide (c ≠ '|')).drop 1).length < s.length := by
  have hc : c ≠ '|' := by
    have := dropWhile_head_false (fun c => decide (c = '|')) s c cs h
    simpa using this
  refine ⟨?_, ?_, ?_⟩
  · unfold strtok_r; rw [h]
  · rw [← whitelist_pieces_dropWhile, h, whitelist_pieces_token c cs hc]
  · have h1 : (c :: cs).length ≤ s.length := by
      rw [← h]; exact (List.dropWhile_suffix _).length_le
    have h2 : ((c :: cs).dropWhile fun c => decide (c ≠ '|')).length ≤ (c :: cs).length :=
      (List.dropWhile_suffix _).length_le
    have h3 : ((c :: cs).dropWhile fun c => decide (c ≠ '|')) =
        cs.dropWhile fun c => decide (c ≠ '|') :=
      List.dropWhile_cons_of_pos (by simpa using hc)
    have h4 : (cs.dropWhile fun c => decide (c ≠ '|')).length ≤ cs.length :=
      (List.dropWhile_suffix _).length_le
    rw [h3, List.length_drop]
    simp only [List.length_cons] at h1
    omega

theorem whitelist_step_none (E : Env R) (st : List (Option R) × Nat) (piece : List Char)
    (h : (E.xcc_b64_decode (String.mk piece)).bind E.regcomp = none) :
    whitelist_step E st piece = st := by
  simp [whitelist_step, h]

theorem whitelist_step_some (E : Env R) (st : List (Option R) × Nat) (piece : List Char)
    (r : R) (h : (E.xcc_b64_decode (String.mk piece)).bind E.regcomp = some r) :
    whitelist_step E st piece = (st.1.set st.2 (some r), st.2 + 1) := by
  simp [whitelist_step, h]

theorem build_whitelist_loop_eq (E : Env R) :
    ∀ (n : Nat) (s : List Char) (fuel : Nat) (re : List (Option R)) (i : Nat),
      s.length ≤ n → s.length + 1 ≤ fuel →
      build_whitelist_loop E fuel (strtok_r s).1 (strtok_r s).2 re i =
        whitelist_rounds E (whitelist_pieces s) (re, i) := by
  intro n
  induction n with
  | zero =>
    intro s fuel re i hn hf
    have hs : s = [] := List.length_eq_zero.mp (Nat.le_zero.mp hn)
    subst hs
    obtain ⟨f, rfl⟩ : ∃ f, fuel = f + 1 := ⟨fuel - 1, by simp at hf; omega⟩
    obtain ⟨h1, h2⟩ := strtok_r_none [] rfl
    rw [h1, h2]
    rfl
  | succ n ih =>
    intro s fuel re i hn hf
    obtain ⟨f, rfl⟩ : ∃ f, fuel = f + 1 := ⟨fuel - 1, by omega⟩
    cases hd : s.dropWhile (fun c => decide (c = '|')) with
    | nil =>
      obtain ⟨h1, h2⟩ := strtok_r_none s hd
      rw [h1, h2]
      rfl
    | cons c cs =>
      obtain ⟨h1, h2, h3⟩ := strtok_r_some s c cs hd
      rw [h1, h2]
      simp only [build_whitelist_loop, whitelist_rounds]
      have key := fun re i => ih (((c :: cs).dropWhile fun c => decide (c ≠ '|')).drop 1) f re i
        (by omega) (by omega)
      cases hdec : E.xcc_b64_decode (String.mk ((c :: cs).takeWhile fun c => c ≠ '|')) with
      | none => rfl
      | some d =>
        simp only []
        cases hc : E.regcomp d with
        | none =>
          rw [whitelist_step_none E _ _ (by rw [hdec]; exact hc)]
          exact key re i
        | some r =>
          rw [whitelist_step_some E _ _ r (by rw [hdec]; exact hc)]
          exact key _ _

theorem whitelist_rounds_decoded (E : Env R) :
    ∀ (pieces : List (List Char)) (st : List (Option R) × Nat),
      (pieces.all fun piece => (E.xcc_b64_decode (String.mk piece)).isSome) = true →
      whitelist_rounds E pieces st = some (pieces.foldl (whitelist_step E) st) := by
  intro pieces
  induction pieces with
  | nil => intro st _; rfl
  | cons piece rest ih =>
    intro st h
    rw [List.all_cons, Bool.and_eq_true] at h
    unfold whitelist_rounds
    cases hdec : E.xcc_b64_decode (String.mk piece) with
    | none => rw [hdec] at h; exact absurd h.1 (by simp)
    | some d =>
      simp only [List.foldl_cons]
      exact ih _ h.2

theorem whitelist_rounds_killed (E : Env R) :
    ∀ (pieces : List (List Char)) (st : List (Option R) × Nat),
      (pieces.all fun piece => (E.xcc_b64_decode (String.mk piece)).isSome) = false →
      whitelist_rounds E pieces st = none := by
  intro pieces
  induction pieces with
  | nil => intro st h; simp at h
  | cons piece rest ih =>
    intro st h
    unfold whitelist_rounds
    cases hdec : E.xcc_b64_decode (String.mk piece) with
    | none => rfl
    | some d =>
      simp only []
      apply ih
      rw [List.all_cons, hdec] at h
      simpa using h

theorem set_length_append {α : Type} (pre : List α) (x y : α) (rest : List α) :
    (pre ++ y :: rest).set pre.length x = pre ++ x :: rest := by
  induction pre with
  | nil => rfl
  | cons a pre ih => simp [ih]

theorem whitelist_fold_eq (E : Env R) :
    ∀ (pieces : List (List Char)) (pre : List (Option R)) (k : Nat), pieces.length ≤ k →
      pieces.foldl (whitelist_step E) (pre ++ List.replicate k none, pre.length) =
        (pre ++ (pieces.filterMap fun piece =>
            (E.xcc_b64_decode (String.mk piece)).bind E.regcomp).map some ++
          List.replicate (k - (pieces.filterMap fun piece =>
            (E.xcc_b64_decode (String.mk piece)).bind E.regcomp).length) none,
          pre.length + (pieces.filterMap fun piece =>
            (E.xcc_b64_decode (String.mk piece)).bind E.regcomp).length) := by
  intro pieces
  induction pieces with
  | nil => intro pre k _; simp
  | cons piece rest ih =>
    intro pre k hk
    obtain ⟨j, rfl⟩ : ∃ j, k = j + 1 := ⟨k - 1, by simp at hk; omega⟩
    have hj : rest.length ≤ j := by simp at hk; omega
    rw [List.foldl_cons]
    cases hc : (E.xcc_b64_decode (String.mk piece)).bind E.regcomp with
    | none =>
      rw [whitelist_step_none E _ piece hc]
      simp only [List.filterMap_cons, hc]
      exact ih pre (j + 1) (by omega)
    | some r =>
      rw [whitelist_step_some E _ piece r hc]
      simp only [List.filterMap_cons, hc]
      rw [List.replicate_succ, set_length_append]
      have := ih (pre ++ [some r]) j hj
      simp only [List.append_assoc, List.singleton_append, List.length_append,
        List.length_singleton] at this
      rw [this]
      simp only [List.map_cons, List.length_cons, List.append_assoc, List.cons_append,
        List.nil_append, Nat.add_sub_add_right]
      congr 1
      omega

theorem length_splitOn_bar (s : List Char) : (s.splitOn '|').length = s.count '|' + 1 := by
  induction s with
  | nil => rfl
  | cons c cs ih =>
    unfold List.splitOn at ih ⊢
    rw [List.splitOnP_cons]
    by_cases h : c = '|'
    · subst h
      simp [ih]
    · have h1 : (c == '|') = false := by simpa using h
      rw [h1]
      simp only [Bool.false_eq_true, if_false]
      rw [List.count_cons_of_ne (Ne.symm h)]
      cases hsp : List.splitOnP (fun x => x == '|') cs with
      | nil => exact absurd hsp (List.splitOnP_ne_nil _ _)
      | cons p ps => rw [hsp] at ih; simpa using ih

theorem whitelist_pieces_length_le (s : List Char) :
    (whitelist_pieces s).length ≤ s.count '|' + 1 := by
  rw [← length_splitOn_bar]
  exact List.length_filter_le _ _

theorem build_whitelist_regex_eq (E : Env R) (w : String) (n0 : Nat)
    (hne : w.toList.length ≠ 0) (hcalloc : E.calloc (w.toList.count '|' + 1) = true)
    (hdec : all_decode E w = true) :
    xcd_process_build_whitelist_regex E (some w) n0 =
      some (if (compiled_patterns E w).length = 0 then (none, n0)
        else (some ((compiled_patterns E w).map some ++
            List.replicate (w.toList.count '|' + 1 - (compiled_patterns E w).length) none),
          (compiled_patterns E w).length)) := by
  unfold xcd_process_build_whitelist_regex
  simp only [if_neg hne, hcalloc, Bool.true_eq_false, if_false]
  rw [build_whitelist_loop_eq E w.toList.length w.toList _ _ _ (Nat.le_refl _) (Nat.le_refl _),
    whitelist_rounds_decoded E _ _ hdec]
  have h := whitelist_fold_eq E (whitelist_pieces w.toList) [] (w.toList.count '|' + 1)
    (whitelist_pieces_length_le _)
  simp only [List.nil_append, List.length_nil, Nat.zero_add] at h
  rw [h]
  simp only []
  unfold compiled_patterns
  split <;> rfl

theorem build_whitelist_regex_killed (E : Env R) (w : String) (n0 : Nat)
    (hne : w.toList.length ≠ 0) (hcalloc : E.calloc (w.toList.count '|' + 1) = true)
    (hdec : all_decode E w = false) :
    xcd_process_build_whitelist_regex E (some w) n0 = none := by
  unfold xcd_process_build_whitelist_regex
  simp only [if_neg hne, hcalloc, Bool.true_eq_false, if_false]
  rw [build_whitelist_loop_eq E w.toList.length w.toList _ _ _ (Nat.le_refl _) (Nat.le_refl _),
    whitelist_rounds_killed E _ _ hdec]

theorem build_whitelist_regex_some (E : Env R) (w : String) (n0 : Nat)
    (re : List (Option R)) (cnt : Nat)
    (h : xcd_process_build_whitelist_regex E (some w) n0 = some (some re, cnt)) :
    all_decode E w = true ∧
      (compiled_patterns E w).length ≠ 0 ∧ cnt = (compiled_patterns E w).length ∧
      re = (compiled_patterns E w).map some ++
        List.replicate (w.toList.count '|' + 1 - (compiled_patterns E w).length) none := by
  by_cases hne : w.toList.length = 0
  · unfold xcd_process_build_whitelist_regex at h
    simp only [if_pos hne, Option.some.injEq] at h
    exact absurd (congrArg Prod.fst h) (by simp)
  · by_cases hcalloc : E.calloc (w.toList.count '|' + 1) = true
    · cases hdec : all_decode E w with
      | false =>
        rw [build_whitelist_regex_killed E w n0 hne hcalloc hdec] at h
        exact absurd h (by simp)
      | true =>
        rw [build_whitelist_regex_eq E w n0 hne hcalloc hdec] at h
        by_cases h0 : (compiled_patterns E w).length = 0
        · rw [if_pos h0] at h; simp at h
        · rw [if_neg h0] at h
          simp only [Option.some.injEq, Prod.mk.injEq] at h
          exact ⟨rfl, h0, h.2.symm, h.1.symm⟩
    · unfold xcd_process_build_whitelist_regex at h
      have hc : E.calloc (w.toList.count '|' + 1) = false := by simpa using hcalloc
      simp only [if_neg hne, hc, if_true, Option.some.injEq] at h
      exact absurd (congrArg Prod.fst h) (by simp)

theorem build_whitelist_regex_cnt_pos (E : Env R) (w : Option String)
    (re : Option (List (Option R))) (re_cnt : Nat)
    (h : xcd_process_build_whitelist_regex E w 0 = some (re, re_cnt)) :
    re.isSome = true → re_cnt > 0 := by
  intro hs
  cases re with
  | none => simp at hs
  | some slots =>
    cases w with
    | none =>
      simp only [xcd_process_build_whitelist_regex, Option.some.injEq] at h
      exact absurd (congrArg Prod.fst h) (by simp)
    | some w =>
      have := build_whitelist_regex_some E w 0 slots re_cnt h
      omega

theorem stops_refl (E : Env R) (log : List Ev) : stops_at_failure E log (0, log) := by
  refine ⟨List.prefix_refl _, ?_, ?_, ?_⟩
  · intro k h1 h2; simp only [] at h2; omega
  · intro h; exact absurd rfl h
  · intro _ k h1 h2; simp only [] at h2; omega

theorem stops_attempt (E : Env R) (log : List Ev) (e : Ev) :
    stops_at_failure E log (attempt E log e) := by
  unfold attempt
  refine ⟨List.prefix_append _ _, ?_, ?_, ?_⟩
  · intro k h1 h2
    simp only [List.length_append, List.length_singleton] at h2
    omega
  · intro _
    simp only [List.length_append, List.length_singleton, Nat.add_sub_cancel]
    exact ⟨by omega, trivial⟩
  · intro h k h1 h2
    simp only [List.length_append, List.length_singleton] at h2
    have : k = log.length := by omega
    subst this
    exact h

theorem stops_trans (E : Env R) (log : List Ev) (a b : Res)
    (ha : stops_at_failure E log a) (ha0 : a.1 = 0) (hb : stops_at_failure E a.2 b) :
    stops_at_failure E log b := by
  obtain ⟨ha1, _, _, ha4⟩ := ha
  obtain ⟨hb1, hb2, hb3, hb4⟩ := hb
  have hl1 := ha1.length_le
  have hl2 := hb1.length_le
  refine ⟨ha1.trans hb1, ?_, ?_, ?_⟩
  · intro k h1 h2
    by_cases hk : k < a.2.length
    · exact ha4 ha0 k h1 hk
    · exact hb2 k (by omega) h2
  · intro h
    obtain ⟨h5, h6⟩ := hb3 h
    exact ⟨by omega, h6⟩
  · intro h k h1 h2
    by_cases hk : k < a.2.length
    · exact ha4 ha0 k h1 hk
    · exact hb4 h k (by omega) h2

theorem stops_andThen (E : Env R) (log : List Ev) (a : Res) (k : List Ev → Res)
    (ha : stops_at_failure E log a) (hk : ∀ l, stops_at_failure E l (k l)) :
    stops_at_failure E log (andThen a k) := by
  unfold andThen
  by_cases h : a.1 ≠ 0
  · rw [if_pos h]; exact ha
  · rw [if_neg h]
    exact stops_trans E log a _ ha (by simpa using h) (hk _)

theorem stops_abort_message (E : Env R) (self : xcd_process_t) (log : List Ev) :
    stops_at_failure E log (xcd_process_record_abort_message E self log).1 := by
  unfold xcd_process_record_abort_message
  simp only []
  split
  · exact stops_refl E log
  · split
    · exact stops_refl E log
    · split
      · exact stops_refl E log
      · split
        · exact stops_refl E log
        · split
          · exact stops_refl E log
          · split
            · exact stops_refl E log
            · split
              · exact stops_refl E log
              · split
                · exact stops_refl E log
                · exact stops_attempt E log _

theorem stops_logcat_lines (E : Env R) (with_pid : Bool) (pid_label : String) :
    ∀ (chunks : List String) (log : List Ev),
      stops_at_failure E log (record_logcat_lines E with_pid pid_label chunks 0 log) := by
  intro chunks
  induction chunks with
  | nil => intro log; exact stops_refl E log
  | cons buf rest ih =>
    intro log
    unfold record_logcat_lines
    split
    · simp only []
      split
      · exact stops_attempt E log _
      · rename_i h
        have h0 : (xcc_util_write_str E log buf).1 = 0 := by simpa using h
        rw [h0]
        exact stops_trans E log _ _ (stops_attempt E log _) h0 (ih _)
    · exact ih _

theorem stops_logcat_buffer (E : Env R) (self : xcd_process_t) (log : List Ev)
    (buffer : String) (lines : Nat) (priority : Char) (api_level : Int) :
    stops_at_failure E log
      (xcd_process_record_logcat_buffer E self log buffer lines priority api_level) := by
  unfold xcd_process_record_logcat_buffer
  simp only []
  apply stops_andThen
  · exact stops_attempt E log _
  · intro l
    split
    · exact stops_refl E l
    · exact stops_logcat_lines E _ _ _ _

theorem stops_logcat (E : Env R) (self : xcd_process_t) (log : List Ev)
    (s e m : Nat) (api_level : Int) :
    stops_at_failure E log (xcd_process_record_logcat E self log s e m api_level) := by
  unfold xcd_process_record_logcat
  split
  · exact stops_refl E log
  · apply stops_andThen
    · exact stops_attempt E log _
    · intro l
      apply stops_andThen
      · split
        · exact stops_logcat_buffer E self _ _ _ _ _
        · exact stops_refl E l
      · intro l
        apply stops_andThen
        · split
          · exact stops_logcat_buffer E self _ _ _ _ _
          · exact stops_refl E l
        · intro l
          apply stops_andThen
          · split
            · exact stops_logcat_buffer E self _ _ _ _ _
            · exact stops_refl E l
          · intro l
            apply stops_andThen
            · exact stops_attempt E l _
            · intro l; exact stops_refl E l

theorem stops_fds_loop (E : Env R) (pid : Int) :
    ∀ (ents : List String) (total : Nat) (log : List Ev),
      stops_at_failure E log ((record_fds_loop E pid ents total log).1,
        (record_fds_loop E pid ents total log).2.2) := by
  intro ents
  induction ents with
  | nil => intro total log; exact stops_refl E log
  | cons d rest ih =>
    intro total log
    unfold record_fds_loop
    split
    · exact ih _ _
    · split
      · exact ih _ _
      · split
        · exact ih _ _
        · split
          · exact ih _ _
          · split
            · exact ih _ _
            · simp only []
              split
              · exact ih _ _
              · split
                · exact stops_attempt E log _
                · rename_i fd _ _ _ h
                  have h0 : (attempt E log (fd_line E pid fd)).1 = 0 := by simpa using h
                  exact stops_trans E log _ _ (stops_attempt E log _) h0 (ih _ _)

theorem stops_fds_end (E : Env R) (total : Nat) (log : List Ev) :
    stops_at_failure E log (record_fds_end E total log) := by
  unfold record_fds_end
  simp only []
  split
  · apply stops_andThen
    · exact stops_attempt E log _
    · intro l; exact stops_attempt E l _
  · exact stops_attempt E log _

theorem stops_fds (E : Env R) (self : xcd_process_t) (log : List Ev) :
    stops_at_failure E log (xcd_process_record_fds E self log) := by
  unfold xcd_process_record_fds
  apply stops_andThen
  · exact stops_attempt E log _
  · intro l
    split
    · exact stops_fds_end E _ _
    · simp only []
      split
      · exact stops_fds_loop E self.pid _ _ _
      · rename_i h
        exact stops_trans E l _ _ (stops_fds_loop E self.pid _ _ _) (by simpa using h)
          (stops_fds_end E _ _)

theorem stops_crash_thread (E : Env R) (self : xcd_process_t) (a : record_args)
    (thd : xcd_thread_t) (log : List Ev) :
    stops_at_failure E log (record_crash_thread E self a thd log) := by
  unfold record_crash_thread
  apply stops_andThen
  · exact stops_attempt E log _
  · intro l
    apply stops_andThen
    · exact stops_attempt E l _
    · intro l
      apply stops_andThen
      · exact stops_abort_message E self l
      · intro l
        apply stops_andThen
        · exact stops_attempt E l _
        · intro l
          apply stops_andThen
          · split
            · apply stops_andThen
              · exact stops_attempt E l _
              · intro l
                apply stops_andThen
                · exact stops_attempt E l _
                · intro l
                  apply stops_andThen
                  · exact stops_attempt E l _
                  · intro l
                    apply stops_andThen
                    · exact stops_attempt E l _
                    · intro l; exact stops_refl E l
            · exact stops_refl E l
          · intro l
            apply stops_andThen
            · split
              · exact stops_attempt E l _
              · exact stops_refl E l
            · intro l
              apply stops_andThen
              · exact stops_logcat E self _ _ _ _ _
              · intro l
                apply stops_andThen
                · split
                  · exact stops_fds E self _
                  · exact stops_refl E l
                · intro l
                  apply stops_andThen
                  · exact stops_attempt E l _
                  · intro l; exact stops_refl E l

theorem stops_crash_loop (E : Env R) (self : xcd_process_t) (a : record_args) :
    ∀ (thds : List xcd_thread_t) (log : List Ev),
      stops_at_failure E log (record_crash_loop E self a thds log) := by
  intro thds
  induction thds with
  | nil => intro log; exact stops_refl E log
  | cons thd rest ih =>
    intro log
    unfold record_crash_loop
    split
    · exact stops_crash_thread E self a thd log
    · exact ih _

theorem stops_other_thread (E : Env R) (self : xcd_process_t) (thd : xcd_thread_t)
    (log : List Ev) : stops_at_failure E log (record_other_thread E self thd log) := by
  unfold record_other_thread
  apply stops_andThen
  · exact stops_attempt E log _
  · intro l
    apply stops_andThen
    · exact stops_attempt E l _
    · intro l
      apply stops_andThen
      · exact stops_attempt E l _
      · intro l
        split
        · apply stops_andThen
          · exact stops_attempt E l _
          · intro l
            apply stops_andThen
            · exact stops_attempt E l _
            · intro l; exact stops_refl E l
        · exact stops_refl E l

theorem stops_others_loop (E : Env R) (self : xcd_process_t)
    (re : Option (List (Option R))) (re_cnt : Nat) (c : Int) :
    ∀ (thds : List xcd_thread_t) (st : loop_state), st.r = 0 →
      stops_at_failure E st.log ((record_others_loop E self re re_cnt c thds st).r,
        (record_others_loop E self re re_cnt c thds st).log) := by
  intro thds
  induction thds with
  | nil =>
    intro st hr
    unfold record_others_loop
    rw [hr]
    exact stops_refl E st.log
  | cons thd rest ih =>
    intro st hr
    unfold record_others_loop
    split
    · split
      · exact ih st hr
      · simp only []
        split
        · exact ih ⟨st.r, st.log, st.thd_dumped, st.thd_matched_regex + 1,
            st.thd_ignored_by_limit + 1⟩ hr
        · split
          · exact stops_other_thread E self thd st.log
          · rename_i h
            have h0 : (record_other_thread E self thd st.log).1 = 0 := by simpa using h
            exact stops_trans E st.log _ _ (stops_other_thread E self thd st.log) h0
              (ih ⟨(record_other_thread E self thd st.log).1,
                (record_other_thread E self thd st.log).2, st.thd_dumped + 1,
                st.thd_matched_regex + 1, st.thd_ignored_by_limit⟩ h0)
    · exact ih st hr

theorem stops_summary_lines (E : Env R) (self : xcd_process_t)
    (re : Option (List (Option R))) (re_cnt : Nat) (c : Int) (st : loop_state)
    (log : List Ev) :
    stops_at_failure E log (record_summary_lines E self re re_cnt c st log) := by
  unfold record_summary_lines
  apply stops_andThen
  · exact stops_attempt E log _
  · intro l
    apply stops_andThen
    · split
      · exact stops_attempt E l _
      · exact stops_refl E l
    · intro l
      apply stops_andThen
      · split
        · exact stops_attempt E l _
        · exact stops_refl E l
      · intro l
        apply stops_andThen
        · exact stops_attempt E l _
        · intro l; exact stops_attempt E l _

theorem stops_summary (E : Env R) (self : xcd_process_t) (re : Option (List (Option R)))
    (re_cnt : Nat) (c : Int) (st : loop_state) (hn : self.nthds > 1) :
    stops_at_failure E st.log (record_summary E self re re_cnt c st) := by
  unfold record_summary
  rw [if_pos hn]
  split
  · apply stops_andThen
    · exact stops_attempt E st.log _
    · intro l; exact stops_summary_lines E self re re_cnt c st l
  · exact stops_summary_lines E self re re_cnt c st st.log

theorem andThen_extends (E : Env R) (a : Res) (k : List Ev → Res)
    (hk : ∀ l, stops_at_failure E l (k l)) : a.2 <+: (andThen a k).2 := by
  unfold andThen
  split
  · exact List.prefix_refl _
  · exact (hk a.2).1

theorem andThen_attempt_length (E : Env R) (log : List Ev) (e : Ev) (k : List Ev → Res)
    (hk : ∀ l, stops_at_failure E l (k l)) :
    log.length < (andThen (attempt E log e) k).2.length := by
  have h := (andThen_extends E (attempt E log e) k hk).length_le
  simp only [attempt, List.length_append, List.length_singleton] at h
  exact h

theorem summary_lines_attempts (E : Env R) (self : xcd_process_t)
    (re : Option (List (Option R))) (re_cnt : Nat) (c : Int) (st : loop_state)
    (log : List Ev) :
    log.length < (record_summary_lines E self re re_cnt c st log).2.length := by
  unfold record_summary_lines
  apply andThen_attempt_length
  intro l
  apply stops_andThen
  · split
    · exact stops_attempt E l _
    · exact stops_refl E l
  · intro l
    apply stops_andThen
    · split
      · exact stops_attempt E l _
      · exact stops_refl E l
    · intro l
      apply stops_andThen
      · exact stops_attempt E l _
      · intro l; exact stops_attempt E l _

theorem summary_attempts (E : Env R) (self : xcd_process_t) (re : Option (List (Option R)))
    (re_cnt : Nat) (c : Int) (st : loop_state) (hn : self.nthds > 1) :
    st.log.length < (record_summary E self re re_cnt c st).2.length := by
  unfold record_summary
  rw [if_pos hn]
  split
  · exact andThen_attempt_length E st.log _ _
      (fun l => stops_summary_lines E self re re_cnt c st l)
  · exact summary_lines_attempts E self re re_cnt c st st.log

/-! ## C6: the descriptor listing -/

/-- C6: when every write succeeds, `xcd_process_record_fds` writes the header, then one `fd`
line for each of the first 1024 descriptors of the listing, in listing order, then the marker
line exactly when the listing has more than 1024 descriptors, then a last line with the true
total; the number of `fd` lines is `min N 1024`. A descriptor is an entry that `xcc_util_atoi`
reads as a number that is not negative; the names `""`, `.` and `..` are no numbers. -/
theorem record_fds_listing (E : Env R) (self : xcd_process_t) (log : List Ev)
    (ents : List String)
    (hw : ∀ k, E.write_status k = 0)
    (hdir : E.opendir ("/proc/" ++ toString self.pid ++ "/fd") = some ents)
    (hatoi : E.xcc_util_atoi "" = none ∧ E.xcc_util_atoi "." = none ∧
      E.xcc_util_atoi ".." = none) :
    xcd_process_record_fds E self log =
      (0, log ++ [Ev.text "open files:\n"] ++
        ((fd_entries E ents).take 1024).map (fd_line E self.pid) ++
        (if (fd_entries E ents).length > 1024 then [Ev.text "    ......\n"] else []) ++
        [Ev.text ("    (number of FDs: " ++ toString (fd_entries E ents).length ++ ")\n\n")]) ∧
    ((fd_entries E ents).take 1024).length = min (fd_entries E ents).length 1024 := by
  constructor
  · unfold xcd_process_record_fds
    rw [xcc_util_write_str, attempt_ok E hw, andThen_ok]
    simp only [hdir]
    rw [record_fds_loop_ok E self.pid hw hatoi]
    simp only [ne_eq, not_true_eq_false, if_false, Nat.zero_add, Nat.sub_zero]
    unfold record_fds_end
    by_cases h : (fd_entries E ents).length > 1024
    · simp only [if_pos h]
      rw [xcc_util_write_str, attempt_ok E hw, andThen_ok, xcc_util_write_format,
        attempt_ok E hw]
    · simp only [if_neg h]
      rw [xcc_util_write_format, attempt_ok E hw]
      simp
  · rw [List.length_take]; exact Nat.min_comm _ _

theorem fd_entries_replicate (E : Env R) (d : String) (fd : Int) (n : Nat)
    (h : E.xcc_util_atoi d = some fd) (hfd : ¬ fd < 0) :
    fd_entries E (List.replicate n d) = List.replicate n fd := by
  induction n with
  | zero => rfl
  | succ n ih =>
    rw [List.replicate_succ, fd_entries_cons_keep E d _ fd h hfd, ih, List.replicate_succ]

/-- The listing of the examples has the three descriptors 1, 2 and 3: three lines, no marker,
total 3. A listing with 1300 descriptors gives 1024 lines, the marker and the total 1300. -/
theorem record_fds_listing_witness :
    (∀ k, sample_env.write_status k = 0) ∧
    sample_env.opendir ("/proc/" ++ toString sample_process.pid ++ "/fd") =
      some [".", "..", "1", "2", "3", "self"] ∧
    (sample_env.xcc_util_atoi "" = none ∧ sample_env.xcc_util_atoi "." = none ∧
      sample_env.xcc_util_atoi ".." = none) ∧
    xcd_process_record_fds sample_env sample_process [] =
      (0, [Ev.text "open files:\n", Ev.text "    fd 1: /dev/null\n",
        Ev.text "    fd 2: /dev/null\n", Ev.text "    fd 3: /dev/null\n",
        Ev.text "    (number of FDs: 3)\n\n"]) ∧
    crowded_env.opendir ("/proc/" ++ toString sample_process.pid ++ "/fd") =
      some (List.replicate 1300 "7") ∧
    xcd_process_record_fds crowded_env sample_process [] =
      (0, [Ev.text "open files:\n"] ++
        List.replicate 1024 (Ev.text "    fd 7: /dev/null\n") ++
        [Ev.text "    ......\n", Ev.text "    (number of FDs: 1300)\n\n"]) := by
  refine ⟨fun _ => rfl, rfl, by decide,
    (record_fds_listing sample_env sample_process [] [".", "..", "1", "2", "3", "self"]
      (fun _ => rfl) rfl (by decide)).1.trans (by decide), rfl, ?_⟩
  have h := (record_fds_listing crowded_env sample_process [] (List.replicate 1300 "7")
    (fun _ => rfl) rfl (by decide)).1
  rw [fd_entries_replicate crowded_env "7" 7 1300 (by decide) (by decide)] at h
  rw [h]
  have h1 : fd_line crowded_env sample_process.pid 7 = Ev.text "    fd 7: /dev/null\n" := by
    decide
  have h2 : "    (number of FDs: " ++ toString 1300 ++ ")\n\n" =
      "    (number of FDs: 1300)\n\n" := by decide
  have h3 : min 1024 1300 = 1024 := by decide
  have h4 : (1300 : Nat) > 1024 := by decide
  simp only [List.take_replicate, List.map_replicate, List.length_replicate, h1, h2]
  rw [h3, if_pos h4]
  simp only [List.nil_append, List.append_assoc, List.singleton_append]

/-! ## C2: thread enumeration -/

theorem task_tids_cons_skip (E : Env R) (d : String) (rest : List String)
    (h : (if d = "." ∨ d = ".." then none else E.xcc_util_atoi d) = none) :
    task_tids E (d :: rest) = task_tids E rest := by
  unfold task_tids
  rw [List.filterMap_cons, h]

theorem task_tids_cons_keep (E : Env R) (d : String) (rest : List String) (tid : Int)
    (h : (if d = "." ∨ d = ".." then none else E.xcc_util_atoi d) = some tid) :
    task_tids E (d :: rest) = tid :: task_tids E rest := by
  unfold task_tids
  rw [List.filterMap_cons, h]

theorem load_threads_loop_ok (E : Env R) (pid : Int) (hmalloc : ∀ k, E.malloc k = true) :
    ∀ (ents : List String) (k : Nat) (thds : List xcd_thread_t) (nthds : Nat),
      load_threads_loop E pid ents k thds nthds =
        (0, thds ++ (task_tids E ents).map (xcd_thread_init pid),
          nthds + (task_tids E ents).length) := by
  intro ents
  induction ents with
  | nil => intro k thds nthds; simp [load_threads_loop, task_tids]
  | cons d rest ih =>
    intro k thds nthds
    unfold load_threads_loop
    by_cases h1 : d = "."
    · rw [if_pos h1, ih, task_tids_cons_skip E d rest (by simp [h1])]
    · rw [if_neg h1]
      by_cases h2 : d = ".."
      · rw [if_pos h2, ih, task_tids_cons_skip E d rest (by simp [h2])]
      · rw [if_neg h2]
        cases h3 : E.xcc_util_atoi d with
        | none =>
          simp only []
          rw [ih, task_tids_cons_skip E d rest (by simp [h1, h2, h3])]
        | some tid =>
          simp only [hmalloc, Bool.true_eq_false, if_false]
          rw [ih, task_tids_cons_keep E d rest tid (by simp [h1, h2, h3])]
          simp
          omega

theorem process_create_eq (E : Env R) (pid crash_tid : Int) (si : siginfo_t)
    (ents : List String)
    (hdir : E.opendir ("/proc/" ++ toString pid ++ "/task") = some ents)
    (hmalloc : ∀ k, E.malloc k = true) :
    xcd_process_create E pid crash_tid si =
      (if crash_tid ∈ task_tids E ents then 0 else E.XCC_ERRNO_NOTFND,
        some ⟨pid, "", crash_tid, si, (task_tids E ents).map (xcd_thread_init pid),
          (task_tids E ents).length⟩) := by
  have hany : (((task_tids E ents).map (xcd_thread_init pid)).any
      (fun thd => decide (thd.tid = crash_tid)) = true) ↔ crash_tid ∈ task_tids E ents := by
    simp only [List.any_eq_true, decide_eq_true_eq, List.mem_map]
    constructor
    · rintro ⟨thd, ⟨tid, hm, rfl⟩, ht⟩
      exact ht ▸ hm
    · intro hm
      exact ⟨xcd_thread_init pid crash_tid, ⟨crash_tid, hm, rfl⟩, rfl⟩
  unfold xcd_process_create xcd_process_load_threads
  simp only [hmalloc, Bool.true_eq_false, if_false, hdir,
    load_threads_loop_ok E pid hmalloc, List.nil_append, Nat.zero_add, ne_eq, not_true_eq_false]
  by_cases hc : crash_tid ∈ task_tids E ents
  · rw [if_pos (hany.mpr hc), if_pos hc]
  · rw [if_neg (fun h => hc (hany.mp h)), if_neg hc]

/-- C2: when the task directory can be read and every allocation succeeds,
`xcd_process_create` leaves a process whose queue holds one thread for each entry of the
listing that is neither `.` nor `..` and whose name `xcc_util_atoi` reads as a number, in
listing order; it returns 0 if and only if the crashed tid is among them and the not-found
error otherwise; `xcd_process_get_number_of_threads` is the number of those entries. -/
theorem process_create_threads (E : Env R) (pid crash_tid : Int) (si : siginfo_t)
    (ents : List String)
    (hdir : E.opendir ("/proc/" ++ toString pid ++ "/task") = some ents)
    (hmalloc : ∀ k, E.malloc k = true)
    (hnotfnd : E.XCC_ERRNO_NOTFND ≠ 0) :
    ∃ self : xcd_process_t,
      (xcd_process_create E pid crash_tid si).2 = some self ∧
      self.thds = (task_tids E ents).map (xcd_thread_init pid) ∧
      self.thds.map (fun thd => thd.tid) = task_tids E ents ∧
      xcd_process_get_number_of_threads self = (task_tids E ents).length ∧
      ((xcd_process_create E pid crash_tid si).1 = 0 ↔ crash_tid ∈ task_tids E ents) ∧
      (crash_tid ∉ task_tids E ents →
        (xcd_process_create E pid crash_tid si).1 = E.XCC_ERRNO_NOTFND) := by
  have hmap : ((task_tids E ents).map (xcd_thread_init pid)).map (fun thd => thd.tid) =
      task_tids E ents := by
    rw [List.map_map]
    exact List.map_id _
  rw [process_create_eq E pid crash_tid si ents hdir hmalloc]
  refine ⟨_, rfl, rfl, hmap, rfl, ?_, ?_⟩
  · by_cases hc : crash_tid ∈ task_tids E ents
    · simp [hc]
    · simp [hc, hnotfnd]
  · intro hc
    simp [hc]

/-- The task directory of the examples lists the threads 1, 2 and 3: with the crashed tid 2
the process is created with three threads. -/
theorem process_create_threads_witness :
    sample_env.opendir ("/proc/" ++ toString (100 : Int) ++ "/task") =
      some [".", "..", "1", "2", "3", "self"] ∧
    (∀ k, sample_env.malloc k = true) ∧
    sample_env.XCC_ERRNO_NOTFND ≠ 0 ∧
    (∃ self : xcd_process_t,
      (xcd_process_create sample_env 100 2 sample_process.si).2 = some self ∧
      self.thds = (task_tids sample_env [".", "..", "1", "2", "3", "self"]).map
        (xcd_thread_init 100) ∧
      self.thds.map (fun thd => thd.tid) =
        task_tids sample_env [".", "..", "1", "2", "3", "self"] ∧
      xcd_process_get_number_of_threads self =
        (task_tids sample_env [".", "..", "1", "2", "3", "self"]).length ∧
      ((xcd_process_create sample_env 100 2 sample_process.si).1 = 0 ↔
        (2 : Int) ∈ task_tids sample_env [".", "..", "1", "2", "3", "self"]) ∧
      ((2 : Int) ∉ task_tids sample_env [".", "..", "1", "2", "3", "self"] →
        (xcd_process_create sample_env 100 2 sample_process.si).1 =
          sample_env.XCC_ERRNO_NOTFND)) ∧
    task_tids sample_env [".", "..", "1", "2", "3", "self"] = [1, 2, 3] ∧
    (xcd_process_create sample_env 100 2 sample_process.si).1 = 0 ∧
    (xcd_process_create sample_env 100 7 sample_process.si).1 = 1006 :=
  ⟨rfl, fun _ => rfl, by decide,
    process_create_threads sample_env 100 2 sample_process.si
      [".", "..", "1", "2", "3", "self"] rfl (fun _ => rfl) (by decide),
    by decide, by decide, by decide⟩

/-! ## C3: accounting of the secondary-thread loop -/

/-- C3: when every write succeeds, the second loop of `xcd_process_record`, started with its
counters at 0, ends with status 0; with `m` the number of threads that are not the crashed
one and pass the whitelist check, the matched counter is `m`; for a ceiling `c > 0` the
dumped counter is `min m c`, the ignored counter `m - min m c`, and the sections written are
those of the first `min m c` such threads in queue order; for `c ≤ 0` all `m` are dumped and
none is ignored. The counters are the same whatever `xcd_thread_load_frames` answers. -/
theorem secondary_loop_accounting (E : Env R) (self : xcd_process_t)
    (re : Option (List (Option R))) (re_cnt : Nat) (c : Int) (log : List Ev)
    (hw : ∀ k, E.write_status k = 0) :
    record_others_loop E self re re_cnt c self.thds ⟨0, log, 0, 0, 0⟩ =
      { r := 0
        log := log ++ ((eligible_threads E.regexec self.crash_tid re re_cnt self.thds).take
          (quota c 0 (eligible_threads E.regexec self.crash_tid re re_cnt self.thds).length)
          ).flatMap (thread_section E self)
        thd_dumped :=
          quota c 0 (eligible_threads E.regexec self.crash_tid re re_cnt self.thds).length
        thd_matched_regex :=
          (eligible_threads E.regexec self.crash_tid re re_cnt self.thds).length
        thd_ignored_by_limit :=
          ((eligible_threads E.regexec self.crash_tid re re_cnt self.thds).length -
            quota c 0 (eligible_threads E.regexec self.crash_tid re re_cnt self.thds).length
            : Nat) } ∧
    (∀ m : Nat, c > 0 → quota c 0 m = min m c.toNat) ∧
    (∀ m : Nat, c ≤ 0 → quota c 0 m = m ∧ m - quota c 0 m = 0) ∧
    (∀ load_frames : Int → Int,
      (record_others_loop { E with xcd_thread_load_frames := load_frames } self re re_cnt c
          self.thds ⟨0, log, 0, 0, 0⟩).thd_dumped =
        (record_others_loop E self re re_cnt c self.thds ⟨0, log, 0, 0, 0⟩).thd_dumped ∧
      (record_others_loop { E with xcd_thread_load_frames := load_frames } self re re_cnt c
          self.thds ⟨0, log, 0, 0, 0⟩).thd_matched_regex =
        (record_others_loop E self re re_cnt c self.thds ⟨0, log, 0, 0, 0⟩).thd_matched_regex ∧
      (record_others_loop { E with xcd_thread_load_frames := load_frames } self re re_cnt c
          self.thds ⟨0, log, 0, 0, 0⟩).thd_ignored_by_limit =
        (record_others_loop E self re re_cnt c self.thds
          ⟨0, log, 0, 0, 0⟩).thd_ignored_by_limit) := by
  refine ⟨?_, ?_, ?_, ?_⟩
  · rw [record_others_loop_ok E self re re_cnt c hw self.thds ⟨0, log, 0, 0, 0⟩ rfl]
    simp
  · intro m hc
    unfold quota
    rw [if_pos hc]
    simp
  · intro m hc
    unfold quota
    rw [if_neg (by omega)]
    simp
  · intro load_frames
    rw [record_others_loop_ok E self re re_cnt c hw self.thds ⟨0, log, 0, 0, 0⟩ rfl,
      record_others_loop_ok { E with xcd_thread_load_frames := load_frames } self re re_cnt c
        hw self.thds ⟨0, log, 0, 0, 0⟩ rfl]
    exact ⟨rfl, rfl, rfl⟩

/-- Ten secondary threads, no whitelist and the ceiling 4: four threads are dumped, six are
ignored by the limit and ten are matched. -/
theorem secondary_loop_accounting_witness :
    (∀ k, sample_env.write_status k = 0) ∧
    (eligible_threads sample_env.regexec sample_process_11.crash_tid none 0
      sample_process_11.thds).length = 10 ∧
    (record_others_loop sample_env sample_process_11 none 0 4 sample_process_11.thds
      ⟨0, [], 0, 0, 0⟩).thd_dumped = 4 ∧
    (record_others_loop sample_env sample_process_11 none 0 4 sample_process_11.thds
      ⟨0, [], 0, 0, 0⟩).thd_ignored_by_limit = 6 ∧
    (record_others_loop sample_env sample_process_11 none 0 4 sample_process_11.thds
      ⟨0, [], 0, 0, 0⟩).thd_matched_regex = 10 :=
  ⟨fun _ => rfl, by decide,
    (congrArg loop_state.thd_dumped (secondary_loop_accounting sample_env sample_process_11
      none 0 4 [] (fun _ => rfl)).1).trans (by decide),
    (congrArg loop_state.thd_ignored_by_limit (secondary_loop_accounting sample_env
      sample_process_11 none 0 4 [] (fun _ => rfl)).1).trans (by decide),
    (congrArg loop_state.thd_matched_regex (secondary_loop_accounting sample_env
      sample_process_11 none 0 4 [] (fun _ => rfl)).1).trans (by decide)⟩

/-! ## C8: the trailing summary -/

theorem quota_le (c d : Int) (m : Nat) : quota c d m ≤ m := by
  unfold quota
  split <;> omega

theorem record_summary_ok (E : Env R) (self : xcd_process_t) (re : Option (List (Option R)))
    (re_cnt : Nat) (c : Int) (st : loop_state) (hw : ∀ k, E.write_status k = 0)
    (hre : re.isSome = true → re_cnt > 0) (hn : self.nthds > 1) :
    record_summary E self re re_cnt c st =
      (0, st.log ++ (if st.thd_dumped = 0 then [Ev.text E.XCC_UTIL_THREAD_SEP] else []) ++
        [Ev.text ("total threads (exclude the crashed thread): " ++
          toString (self.nthds - 1) ++ "\n")] ++
        (if re.isSome then
          [Ev.text ("threads matched whitelist: " ++ toString st.thd_matched_regex ++ "\n")]
          else []) ++
        (if c > 0 then
          [Ev.text ("threads ignored by max count limit: " ++
            toString st.thd_ignored_by_limit ++ "\n")]
          else []) ++
        [Ev.text ("dumped threads: " ++ toString st.thd_dumped ++ "\n"),
          Ev.text E.XCC_UTIL_THREAD_END]) := by
  have hcond : (re.isSome = true ∧ re_cnt > 0) ↔ re.isSome = true :=
    ⟨fun h => h.1, fun h => ⟨h, hre h⟩⟩
  unfold record_summary record_summary_lines
  rw [if_pos hn]
  simp only [xcc_util_write_str, xcc_util_write_format, attempt_ok E hw, andThen_ok, hcond]
  by_cases h1 : st.thd_dumped = 0 <;> by_cases h2 : re.isSome = true <;> by_cases h3 : c > 0 <;>
    simp [h1, h2, h3, attempt_ok E hw, andThen_ok]

theorem record_all_threads_ok (E : Env R) (self : xcd_process_t) (a : record_args)
    (re : Option (List (Option R))) (re_cnt : Nat) (log : List Ev)
    (hw : ∀ k, E.write_status k = 0) (hre : re.isSome = true → re_cnt > 0) :
    (self.nthds > 1 →
      record_all_threads E self a re re_cnt log =
        (0, log ++ (dumped_threads E self a re re_cnt).flatMap (thread_section E self) ++
          (if (dumped_threads E self a re re_cnt).length = 0 then
            [Ev.text E.XCC_UTIL_THREAD_SEP] else []) ++
          [Ev.text ("total threads (exclude the crashed thread): " ++
            toString (self.nthds - 1) ++ "\n")] ++
          (if re.isSome then
            [Ev.text ("threads matched whitelist: " ++
              toString (matched_count E self re re_cnt : Int) ++ "\n")]
            else []) ++
          (if a.dump_all_threads_count_max > 0 then
            [Ev.text ("threads ignored by max count limit: " ++
              toString ((matched_count E self re re_cnt -
                (dumped_threads E self a re re_cnt).length : Nat) : Int) ++ "\n")]
            else []) ++
          [Ev.text ("dumped threads: " ++
              toString ((dumped_threads E self a re re_cnt).length : Int) ++ "\n"),
            Ev.text E.XCC_UTIL_THREAD_END])) ∧
    (self.nthds ≤ 1 →
      record_all_threads E self a re re_cnt log =
        (0, log ++ (dumped_threads E self a re re_cnt).flatMap (thread_section E self))) := by
  have hloop := record_others_loop_ok E self re re_cnt a.dump_all_threads_count_max hw
    self.thds ⟨0, log, 0, 0, 0⟩ rfl
  constructor
  · intro hn
    unfold record_all_threads
    rw [hloop, record_summary_ok E self _ _ _ _ hw hre hn]
    unfold dumped_threads matched_count
    simp only [Int.zero_add, List.length_take, Nat.min_eq_left (quota_le _ _ _),
      Nat.cast_eq_zero, List.append_assoc]
  · intro hn
    unfold record_all_threads
    rw [hloop]
    unfold record_summary
    rw [if_neg (by omega)]
    rfl

/-- C8: when every write succeeds and all threads are to be dumped, `xcd_process_record`
returns once the whitelist builder has returned (and is killed with it otherwise), and its
output is the part for the crashed thread, then the sections of the dumped secondary
threads, then, if `nthds > 1`: the separator exactly when no secondary thread was dumped,
the line with `nthds - 1`, the matched line exactly when a whitelist was compiled, the
ignored line exactly when the ceiling is positive, the dumped line and the closing marker.
If `nthds ≤ 1` nothing follows the sections, and if not all threads are to be dumped the
output ends after the part for the crashed thread. -/
theorem record_trailing_summary (E : Env R) (self : xcd_process_t) (a : record_args)
    (log : List Ev) (hw : ∀ k, E.write_status k = 0) :
    (a.dump_all_threads ≠ 0 → self.nthds > 1 →
      xcd_process_record E self a log =
        (xcd_process_build_whitelist_regex E a.dump_all_threads_whitelist 0).map fun w =>
        (0, (record_crash_loop E self a self.thds log).2 ++
          (dumped_threads E self a w.1 w.2).flatMap (thread_section E self) ++
          (if (dumped_threads E self a w.1 w.2).length = 0 then
            [Ev.text E.XCC_UTIL_THREAD_SEP] else []) ++
          [Ev.text ("total threads (exclude the crashed thread): " ++
            toString (self.nthds - 1) ++ "\n")] ++
          (if w.1.isSome then
            [Ev.text ("threads matched whitelist: " ++
              toString (matched_count E self w.1 w.2 : Int) ++ "\n")]
            else []) ++
          (if a.dump_all_threads_count_max > 0 then
            [Ev.text ("threads ignored by max count limit: " ++
              toString ((matched_count E self w.1 w.2 -
                (dumped_threads E self a w.1 w.2).length : Nat) : Int) ++ "\n")]
            else []) ++
          [Ev.text ("dumped threads: " ++
              toString ((dumped_threads E self a w.1 w.2).length : Int) ++ "\n"),
            Ev.text E.XCC_UTIL_THREAD_END])) ∧
    (a.dump_all_threads ≠ 0 → self.nthds ≤ 1 →
      xcd_process_record E self a log =
        (xcd_process_build_whitelist_regex E a.dump_all_threads_whitelist 0).map fun w =>
        (0, (record_crash_loop E self a self.thds log).2 ++
          (dumped_threads E self a w.1 w.2).flatMap (thread_section E self))) ∧
    (a.dump_all_threads = 0 →
      xcd_process_record E self a log =
        some (0, (record_crash_loop E self a self.thds log).2)) := by
  have hc := record_crash_loop_fst E self a hw self.thds log
  refine ⟨?_, ?_, ?_⟩
  · intro hd hn
    unfold xcd_process_record
    simp only [hc, ne_eq, not_true_eq_false, if_false, hd]
    cases hb : xcd_process_build_whitelist_regex E a.dump_all_threads_whitelist 0 with
    | none => rfl
    | some w =>
      simp only [Option.map_some']
      rw [(record_all_threads_ok E self a w.1 w.2 _ hw
        (build_whitelist_regex_cnt_pos E _ w.1 w.2 hb)).1 hn]
  · intro hd hn
    unfold xcd_process_record
    simp only [hc, ne_eq, not_true_eq_false, if_false, hd]
    cases hb : xcd_process_build_whitelist_regex E a.dump_all_threads_whitelist 0 with
    | none => rfl
    | some w =>
      simp only [Option.map_some']
      rw [(record_all_threads_ok E self a w.1 w.2 _ hw
        (build_whitelist_regex_cnt_pos E _ w.1 w.2 hb)).2 hn]
  · intro hd
    unfold xcd_process_record
    simp only [hc, ne_eq, not_true_eq_false, if_false, hd, if_true]

/-- Three threads, no whitelist, no ceiling: after the part for the crashed thread come two
sections, each opened by the separator, then the total 2 and the dumped count 2, with no
matched and no ignored line, then the closing marker. -/
theorem record_trailing_summary_witness :
    (∀ k, sample_env.write_status k = 0) ∧
    sample_args.dump_all_threads ≠ 0 ∧ sample_process.nthds > 1 ∧
    xcd_process_record sample_env sample_process sample_args [] =
      some (0, [Ev.thread_record_info 1 "app",
        Ev.text "signal 4 (SIGILL), code 1 (ILL_ILLOPC), fault addr 0x1000 (*pc=00000000)\n",
        Ev.thread_record_regs 1, Ev.thread_record_backtrace 1,
        Ev.thread_record_buildid 1 0 4096, Ev.thread_record_stack 1,
        Ev.thread_record_memory 1, Ev.meminfo_record 100,
        Ev.text "--- --- ---\n", Ev.thread_record_info 2 "app", Ev.thread_record_regs 2,
        Ev.thread_record_backtrace 2, Ev.thread_record_stack 2,
        Ev.text "--- --- ---\n", Ev.thread_record_info 3 "app", Ev.thread_record_regs 3,
        Ev.thread_record_backtrace 3, Ev.thread_record_stack 3,
        Ev.text "total threads (exclude the crashed thread): 2\n",
        Ev.text "dumped threads: 2\n", Ev.text "+++ +++ +++\n"]) :=
  ⟨fun _ => rfl, by decide, by decide,
    ((record_trailing_summary sample_env sample_process sample_args [] (fun _ => rfl)).1
      (by decide) (by decide)).trans (by decide)⟩

/-! ## C10 and C5: the whitelist -/

/-- For a whitelist string that is not empty, whose array could be allocated and whose
non-empty pieces all decode, `xcd_process_build_whitelist_regex` returns, and it compiles
exactly the pieces for which `regcomp` succeeds, in order: when there is none it returns
`NULL` and leaves `*re_cnt` as it was; otherwise `*re_cnt` is their number and the array,
which has one slot per `|` plus one, holds them in its first slots. Their number never exceeds
the number of slots. -/
theorem build_whitelist_regex_decoded (E : Env R) (w : String) (n0 : Nat)
    (hne : w ≠ "") (hcalloc : E.calloc (w.toList.count '|' + 1) = true)
    (hdec : all_decode E w = true) :
    (compiled_patterns E w).length ≤ w.toList.count '|' + 1 ∧
    (compiled_patterns E w = [] →
      xcd_process_build_whitelist_regex E (some w) n0 = some (none, n0)) ∧
    (compiled_patterns E w ≠ [] →
      ∃ re : List (Option R),
        xcd_process_build_whitelist_regex E (some w) n0 =
          some (some re, (compiled_patterns E w).length) ∧
        re.length = w.toList.count '|' + 1 ∧
        re.take (compiled_patterns E w).length = (compiled_patterns E w).map some) := by
  have hlen : w.toList.length ≠ 0 := by
    intro h
    apply hne
    cases w with
    | mk l =>
      have : l = [] := List.length_eq_zero.mp h
      subst this
      rfl
  have hle : (compiled_patterns E w).length ≤ w.toList.count '|' + 1 :=
    Nat.le_trans (List.length_filterMap_le _ _) (whitelist_pieces_length_le _)
  have heq := build_whitelist_regex_eq E w n0 hlen hcalloc hdec
  refine ⟨hle, ?_, ?_⟩
  · intro h
    rw [heq, h]
    rfl
  · intro h
    have h0 : (compiled_patterns E w).length ≠ 0 := fun h1 => h (List.length_eq_zero.mp h1)
    rw [heq, if_neg h0]
    refine ⟨_, rfl, ?_, ?_⟩
    · simp only [List.length_append, List.length_map, List.length_replicate]
      omega
    · rw [List.take_append_of_le_length (by simp)]
      simp

/-- For a whitelist string that is not empty and whose array could be allocated, a non-empty
piece that does not decode kills the dumper inside `xcd_process_build_whitelist_regex`,
whatever the other pieces are. -/
theorem build_whitelist_regex_undecoded (E : Env R) (w : String) (n0 : Nat)
    (hne : w ≠ "") (hcalloc : E.calloc (w.toList.count '|' + 1) = true)
    (hdec : all_decode E w = false) :
    xcd_process_build_whitelist_regex E (some w) n0 = none := by
  have hlen : w.toList.length ≠ 0 := by
    intro h
    apply hne
    cases w with
    | mk l =>
      have : l = [] := List.length_eq_zero.mp h
      subst this
      rfl
  exact build_whitelist_regex_killed E w n0 hlen hcalloc hdec

/-- C10 at a failing input: the whitelist `a|?|bc` where `xcc_b64_decode` returns `NULL` for
the piece `?`. The claim has the pieces `a` and `bc` compiled and `?` skipped; the code hands
the `NULL` to `regcomp`, and neither the builder nor `xcd_process_record` returns. A piece
that decodes and for which `regcomp` fails is skipped, as the claim says. -/
theorem build_whitelist_regex_undecodable_piece :
    undecodable_env.xcc_b64_decode "?" = none ∧
    whitelist_pieces ("a|?|bc" : String).toList = [['a'], ['?'], ['b', 'c']] ∧
    compiled_patterns undecodable_env "a|?|bc" = ["a", "bc"] ∧
    xcd_process_build_whitelist_regex undecodable_env (some "a|?|bc") 0 = none ∧
    xcd_process_record undecodable_env sample_process
      { sample_args with dump_all_threads_whitelist := some "a|?|bc" } [] = none ∧
    picky_env.regcomp "?" = none ∧
    xcd_process_build_whitelist_regex picky_env (some "a|?|bc") 0 =
      some (some [some "a", some "bc", none], 2) := by
  decide


theorem abort_message_format_ne_zero (c : Nat) (h : c ≠ 0) :
    (if (isspace c && decide (c ≠ 32)) = true then 32 else c) ≠ 0 := by
  split
  · decide
  · exact h

theorem c_string_buffer (b : List Nat) (k : Nat) (hb : ∀ c ∈ b, c ≠ 0) :
    c_string (abort_message_format (b ++ List.replicate (k + 1) 0)) =
      String.mk ((abort_message_format b).map Char.ofNat) := by
  unfold c_string abort_message_format
  congr 2
  induction b with
  | nil =>
    simp only [List.nil_append, List.replicate_succ, List.map_cons, List.map_nil]
    rw [List.takeWhile_cons_of_neg (by decide)]
  | cons c cs ih =>
    simp only [List.cons_append, List.map_cons]
    rw [List.takeWhile_cons_of_pos
      (by simpa using abort_message_format_ne_zero c (hb c (List.mem_cons_self _ _)))]
    rw [ih (fun x hx => hb x (List.mem_cons_of_mem _ hx))]

/-- C4: `xcd_process_record_abort_message` writes nothing and returns 0 when the symbol
address is 0, when one of the reads fails, when one of the two pointers read is 0, or when
the size `S` read is below `sizeof(size_t) + 2`. Otherwise its fourth read asks for exactly
`min (S - (sizeof(size_t) + 1)) 256` bytes at the address `p + sizeof(size_t)` (reduced to
the width of `uintptr_t`); when that read gives that many bytes, none of them NUL, the line
written is `Abort message: ` followed by a text of exactly that length between quotes. -/
theorem record_abort_message_spec (E : Env R) (self : xcd_process_t) (log : List Ev) :
    (E.xcd_maps_find_pc (XCD_PROCESS_LIBC_PATHNAME E) XCD_PROCESS_ABORT_MSG_PTR = 0 →
      (xcd_process_record_abort_message E self log).1 = (0, log)) ∧
    (E.xcd_util_ptrace_read_fully self.pid
        (E.xcd_maps_find_pc (XCD_PROCESS_LIBC_PATHNAME E) XCD_PROCESS_ABORT_MSG_PTR)
        (sizeof_size_t E) = none →
      (xcd_process_record_abort_message E self log).1 = (0, log)) ∧
    (∀ b1 : List Nat,
      E.xcd_util_ptrace_read_fully self.pid
        (E.xcd_maps_find_pc (XCD_PROCESS_LIBC_PATHNAME E) XCD_PROCESS_ABORT_MSG_PTR)
        (sizeof_size_t E) = some b1 →
      (le_decode (b1.take (sizeof_size_t E)) = 0 →
        (xcd_process_record_abort_message E self log).1 = (0, log)) ∧
      (E.xcd_util_ptrace_read_fully self.pid (le_decode (b1.take (sizeof_size_t E)))
          (sizeof_size_t E) = none →
        (xcd_process_record_abort_message E self log).1 = (0, log)) ∧
      (∀ b2 : List Nat,
        E.xcd_util_ptrace_read_fully self.pid (le_decode (b1.take (sizeof_size_t E)))
          (sizeof_size_t E) = some b2 →
        (le_decode (b2.take (sizeof_size_t E)) = 0 →
          (xcd_process_record_abort_message E self log).1 = (0, log)) ∧
        (E.xcd_util_ptrace_read_fully self.pid (le_decode (b2.take (sizeof_size_t E)))
            (sizeof_size_t E) = none →
          (xcd_process_record_abort_message E self log).1 = (0, log)) ∧
        (∀ b3 : List Nat,
          E.xcd_util_ptrace_read_fully self.pid (le_decode (b2.take (sizeof_size_t E)))
            (sizeof_size_t E) = some b3 →
          (le_decode (b3.take (sizeof_size_t E)) < sizeof_size_t E + 2 →
            (xcd_process_record_abort_message E self log).1 = (0, log)) ∧
          (E.xcd_maps_find_pc (XCD_PROCESS_LIBC_PATHNAME E) XCD_PROCESS_ABORT_MSG_PTR ≠ 0 →
            le_decode (b1.take (sizeof_size_t E)) ≠ 0 →
            le_decode (b2.take (sizeof_size_t E)) ≠ 0 →
            sizeof_size_t E + 2 ≤ le_decode (b3.take (sizeof_size_t E)) →
            (xcd_process_record_abort_message E self log).2 =
              [(E.xcd_maps_find_pc (XCD_PROCESS_LIBC_PATHNAME E) XCD_PROCESS_ABORT_MSG_PTR,
                  sizeof_size_t E),
                (le_decode (b1.take (sizeof_size_t E)), sizeof_size_t E),
                (le_decode (b2.take (sizeof_size_t E)), sizeof_size_t E),
                ((le_decode (b2.take (sizeof_size_t E)) + sizeof_size_t E) %
                    2 ^ (8 * sizeof_size_t E),
                  min (le_decode (b3.take (sizeof_size_t E)) - (sizeof_size_t E + 1)) 256)] ∧
            (E.xcd_util_ptrace_read_fully self.pid
                ((le_decode (b2.take (sizeof_size_t E)) + sizeof_size_t E) %
                  2 ^ (8 * sizeof_size_t E))
                (min (le_decode (b3.take (sizeof_size_t E)) - (sizeof_size_t E + 1)) 256) =
                none →
              (xcd_process_record_abort_message E self log).1 = (0, log)) ∧
            (∀ b4 : List Nat,
              E.xcd_util_ptrace_read_fully self.pid
                ((le_decode (b2.take (sizeof_size_t E)) + sizeof_size_t E) %
                  2 ^ (8 * sizeof_size_t E))
                (min (le_decode (b3.take (sizeof_size_t E)) - (sizeof_size_t E + 1)) 256) =
                some b4 →
              b4.length =
                min (le_decode (b3.take (sizeof_size_t E)) - (sizeof_size_t E + 1)) 256 →
              (∀ c ∈ b4, c ≠ 0) →
              (xcd_process_record_abort_message E self log).1 =
                attempt E log (Ev.text ("Abort message: '" ++
                  String.mk ((abort_message_format b4).map Char.ofNat) ++ "'\n")) ∧
              (String.mk ((abort_message_format b4).map Char.ofNat)).length =
                min (le_decode (b3.take (sizeof_size_t E)) - (sizeof_size_t E + 1)) 256))))) := by
  have hmin : ∀ S : Nat, (if S - (sizeof_size_t E + 1) > 256 then 256
      else S - (sizeof_size_t E + 1)) = min (S - (sizeof_size_t E + 1)) 256 := by
    intro S
    split <;> omega
  refine ⟨?_, ?_, ?_⟩
  · intro h
    unfold xcd_process_record_abort_message
    simp only [h, if_true]
  · intro h
    unfold xcd_process_record_abort_message
    simp only [h]
    split <;> rfl
  · intro b1 h1
    refine ⟨?_, ?_, ?_⟩
    · intro h
      unfold xcd_process_record_abort_message
      simp only [h1, h, if_true]
      split <;> rfl
    · intro h
      unfold xcd_process_record_abort_message
      simp only [h1, h]
      split
      · rfl
      · split <;> rfl
    · intro b2 h2
      refine ⟨?_, ?_, ?_⟩
      · intro h
        unfold xcd_process_record_abort_message
        simp only [h1, h2, h, if_true]
        split
        · rfl
        · split <;> rfl
      · intro h
        unfold xcd_process_record_abort_message
        simp only [h1, h2, h]
        split
        · rfl
        · split
          · rfl
          · split <;> rfl
      · intro b3 h3
        refine ⟨?_, ?_⟩
        · intro h
          have h' : le_decode (b3.take (sizeof_size_t E)) < sizeof_size_t E + 1 + 1 := h
          unfold xcd_process_record_abort_message
          simp only [h1, h2, h3, h', if_true]
          split
          · rfl
          · split
            · rfl
            · split <;> rfl
        · intro hppp hpp hp hS
          have hS' : ¬ le_decode (b3.take (sizeof_size_t E)) < sizeof_size_t E + 1 + 1 := by
            omega
          refine ⟨?_, ?_, ?_⟩
          · unfold xcd_process_record_abort_message
            simp only [h1, h2, h3, if_neg hppp, if_neg hpp, if_neg hp, if_neg hS', hmin]
            split <;> rfl
          · intro h
            unfold xcd_process_record_abort_message
            simp only [h1, h2, h3, if_neg hppp, if_neg hpp, if_neg hp, if_neg hS', hmin, h]
          · intro b4 h4 hlen hnz
            constructor
            · unfold xcd_process_record_abort_message
              simp only [h1, h2, h3, if_neg hppp, if_neg hpp, if_neg hp, if_neg hS', hmin, h4]
              unfold abort_message_buffer xcc_util_write_format
              have htake : b4.take
                  (min (le_decode (b3.take (sizeof_size_t E)) - (sizeof_size_t E + 1)) 256) =
                  b4 := by
                rw [← hlen]
                exact List.take_length b4
              rw [htake]
              have hk : 257 - b4.length = (256 - b4.length) + 1 := by
                rw [hlen]
                have := Nat.min_le_right
                  (le_decode (b3.take (sizeof_size_t E)) - (sizeof_size_t E + 1)) 256
                omega
              rw [hk, c_string_buffer b4 _ hnz]
            · simp only [String.length, abort_message_format, List.length_map]
              exact hlen

/-- A record that declares the size 14 on a 64-bit platform: the fourth read asks for 5 bytes
at the record address plus 8, and the message written has 5 characters, the tab shown as a
blank. -/
theorem record_abort_message_spec_witness :
    (xcd_process_record_abort_message abort_env sample_process []).2 =
      [(4096, 8), (8192, 8), (12288, 8), (12296, 5)] ∧
    xcd_process_record_abort_message abort_env sample_process [] =
      ((0, [Ev.text "Abort message: 'lost '\n"]),
        [(4096, 8), (8192, 8), (12288, 8), (12296, 5)]) ∧
    (xcd_process_record_abort_message sample_env sample_process []).1 = (0, []) :=
  ⟨((((record_abort_message_spec abort_env sample_process []).2.2 (le_bytes8 8192)
      (by decide)).2.2 (le_bytes8 12288) (by decide)).2.2 (le_bytes8 14) (by decide)).2
      (by decide) (by decide) (by decide) (by decide) |>.1.trans (by decide),
    by decide,
    (record_abort_message_spec sample_env sample_process []).1 rfl⟩

/-! ## C7: the signal line of an illegal instruction -/

/-- C7, as it stands, fails: for `SIGILL` with a fault address and a remote read that stores
nothing, the signal line still carries the `(*pc=...)` part, with the word 0; the description
is not the address alone. -/
theorem signal_info_sigill_counterexample :
    sample_process.si.si_signo = SIGILL ∧
    sample_env.xcc_util_signal_has_si_addr sample_process.si = true ∧
    sample_env.xcd_util_ptrace_read sample_process.pid sample_process.si.si_addr 4 = [] ∧
    xcd_process_record_signal_info sample_env sample_process [] =
      (0, [Ev.text
        "signal 4 (SIGILL), code 1 (ILL_ILLOPC), fault addr 0x1000 (*pc=00000000)\n"]) ∧
    signal_addr_desc sample_env sample_process = "0x1000 (*pc=00000000)" ∧
    signal_addr_desc sample_env sample_process ≠ fmt_p sample_process.si.si_addr := by
  decide

/-- C7, amended: for `SIGILL` with a fault address the description is the address followed
by ` (*pc=`, the instruction word under `%#08x` and `)`. The word is made of the bytes that
`xcd_util_ptrace_read` stored in the variable that started as 0, so a read that stores
nothing shows `(*pc=00000000)`. The function returns the status of its one write, which is
the same whatever the read did. -/
theorem signal_info_sigill (E : Env R) (self : xcd_process_t) (log : List Ev)
    (haddr : E.xcc_util_signal_has_si_addr self.si = true)
    (hsig : self.si.si_signo = SIGILL) :
    signal_addr_desc E self =
      fmt_p self.si.si_addr ++ " (*pc=" ++
        fmt_x08 (le_decode ((E.xcd_util_ptrace_read self.pid self.si.si_addr 4).take 4)) ++
        ")" ∧
    (E.xcd_util_ptrace_read self.pid self.si.si_addr 4 = [] →
      signal_addr_desc E self = fmt_p self.si.si_addr ++ " (*pc=00000000)") ∧
    xcd_process_record_signal_info E self log =
      (E.write_status log.length, log ++ [Ev.text
        ("signal " ++ toString self.si.si_signo ++ " (" ++ E.xcc_util_get_signame self.si ++
          "), code " ++ toString self.si.si_code ++ " (" ++
          E.xcc_util_get_sigcodename self.si ++ signal_sender_desc E self ++
          "), fault addr " ++ signal_addr_desc E self ++ "\n")]) ∧
    (∀ read : Int → Nat → Nat → List Nat,
      (xcd_process_record_signal_info { E with xcd_util_ptrace_read := read } self log).1 =
        (xcd_process_record_signal_info E self log).1) := by
  have hdesc : signal_addr_desc E self =
      fmt_p self.si.si_addr ++ " (*pc=" ++
        fmt_x08 (le_decode ((E.xcd_util_ptrace_read self.pid self.si.si_addr 4).take 4)) ++
        ")" := by
    unfold signal_addr_desc
    simp only [haddr, hsig, if_true]
  refine ⟨hdesc, ?_, rfl, fun _ => rfl⟩
  intro h
  rw [hdesc, h]
  have h0 : fmt_x08 (le_decode (([] : List Nat).take 4)) = "00000000" := by decide
  rw [h0, String.append_assoc, String.append_assoc]
  rfl

/-- The crashed process of the examples: `SIGILL` at 0x1000 and a read that stores nothing. -/
theorem signal_info_sigill_witness :
    sample_env.xcc_util_signal_has_si_addr sample_process.si = true ∧
    sample_process.si.si_signo = SIGILL ∧
    signal_addr_desc sample_env sample_process =
      fmt_p sample_process.si.si_addr ++ " (*pc=00000000)" :=
  ⟨rfl, rfl, (signal_info_sigill sample_env sample_process [] rfl rfl).2.1 rfl⟩

/-! ## C1 and C9: a write that fails inside the second loop -/

/-- For any statuses of the writes, a run of `xcd_process_record` that returns has stopped
at its first failed write and returns the status of that write, unless the write fails
inside the second loop of a process with more than one thread. -/
theorem record_stops_outside_second_loop (E : Env R) (self : xcd_process_t)
    (a : record_args) (log : List Ev) (res : Res)
    (hres : xcd_process_record E self a log = some res)
    (h : (record_crash_loop E self a self.thds log).1 ≠ 0 ∨ a.dump_all_threads = 0 ∨
      self.nthds ≤ 1 ∨
      ∀ w, xcd_process_build_whitelist_regex E a.dump_all_threads_whitelist 0 = some w →
        (record_others_loop E self w.1 w.2 a.dump_all_threads_count_max self.thds
          ⟨0, (record_crash_loop E self a self.thds log).2, 0, 0, 0⟩).r = 0) :
    stops_at_failure E log res := by
  have hc := stops_crash_loop E self a self.thds log
  unfold xcd_process_record at hres
  simp only [] at hres
  by_cases h1 : (record_crash_loop E self a self.thds log).1 ≠ 0
  · rw [if_pos h1] at hres
    cases hres
    exact hc
  · rw [if_neg h1] at hres
    have h0 : (record_crash_loop E self a self.thds log).1 = 0 := by simpa using h1
    by_cases h2 : a.dump_all_threads = 0
    · rw [if_pos h2] at hres
      cases hres
      exact stops_trans E log _ _ hc h0 (stops_refl E _)
    · rw [if_neg h2] at hres
      cases hb : xcd_process_build_whitelist_regex E a.dump_all_threads_whitelist 0 with
      | none => rw [hb] at hres; exact absurd hres (by simp)
      | some w =>
        rw [hb] at hres
        simp only [Option.some.injEq] at hres
        subst hres
        have hloop := stops_others_loop E self w.1 w.2 a.dump_all_threads_count_max self.thds
          ⟨0, (record_crash_loop E self a self.thds log).2, 0, 0, 0⟩ rfl
        unfold record_all_threads
        by_cases h3 : self.nthds ≤ 1
        · apply stops_trans E log _ _ hc h0
          unfold record_summary
          rw [if_neg (by omega)]
          exact hloop
        · rcases h with h | h | h | h
          · exact absurd h h1
          · exact absurd h h2
          · exact absurd h h3
          · apply stops_trans E log _ _ hc h0
            exact stops_trans E _ _ _ hloop (h w hb) (stops_summary E self _ _ _ _ (by omega))

/-- For any statuses of the writes: when a write fails inside the second loop of a process
with more than one thread, the failed write is the last attempt of the loop, and
`xcd_process_record` returns after attempting at least one more write. -/
theorem record_continues_after_second_loop (E : Env R) (self : xcd_process_t)
    (a : record_args) (log : List Ev) (w : Option (List (Option R)) × Nat)
    (h1 : (record_crash_loop E self a self.thds log).1 = 0)
    (h2 : a.dump_all_threads ≠ 0) (h3 : self.nthds > 1)
    (hb : xcd_process_build_whitelist_regex E a.dump_all_threads_whitelist 0 = some w)
    (h4 : (record_others_loop E self w.1 w.2 a.dump_all_threads_count_max self.thds
        ⟨0, (record_crash_loop E self a self.thds log).2, 0, 0, 0⟩).r ≠ 0) :
    E.write_status ((record_others_loop E self w.1 w.2 a.dump_all_threads_count_max self.thds
        ⟨0, (record_crash_loop E self a self.thds log).2, 0, 0, 0⟩).log.length - 1) ≠ 0 ∧
    ∃ res : Res, xcd_process_record E self a log = some res ∧
      (record_others_loop E self w.1 w.2 a.dump_all_threads_count_max self.thds
        ⟨0, (record_crash_loop E self a self.thds log).2, 0, 0, 0⟩).log.length <
        res.2.length := by
  have hloop := stops_others_loop E self w.1 w.2 a.dump_all_threads_count_max self.thds
    ⟨0, (record_crash_loop E self a self.thds log).2, 0, 0, 0⟩ rfl
  constructor
  · have := (hloop.2.2.1 h4).2
    simp only [] at this
    rw [this]
    exact h4
  · refine ⟨record_all_threads E self a w.1 w.2 (record_crash_loop E self a self.thds log).2,
      ?_, ?_⟩
    · unfold xcd_process_record
      simp only [h1, ne_eq, not_true_eq_false, if_false, h2, hb]
    · unfold record_all_threads
      exact summary_attempts E self _ _ _ _ h3

/-- C1 at a failing input: three threads, all threads dumped, and the separator of the first
secondary thread (attempt number 8) fails with status 5. The writes do not stop there: the
loop jumps to the label `end`, four more writes are attempted for the summary, and the
function returns 0. The same happens when the registers of that thread (attempt number 10)
fail. A failed write in the part for the crashed thread (attempt number 3) or in the summary
(attempt number 19 of a run without other failures) is the last one and its status is
returned. When the attempt number 8 and all later ones fail, the summary separator (attempt
number 9) is still attempted after the failed write. -/
theorem record_after_failed_loop_write :
    (failing_env 8).write_status 8 = 5 ∧
    xcd_process_record (failing_env 8) sample_process sample_args [] =
      some (0, [Ev.thread_record_info 1 "app",
        Ev.text "signal 4 (SIGILL), code 1 (ILL_ILLOPC), fault addr 0x1000 (*pc=00000000)\n",
        Ev.thread_record_regs 1, Ev.thread_record_backtrace 1,
        Ev.thread_record_buildid 1 0 4096, Ev.thread_record_stack 1,
        Ev.thread_record_memory 1, Ev.meminfo_record 100,
        Ev.text "--- --- ---\n",
        Ev.text "--- --- ---\n",
        Ev.text "total threads (exclude the crashed thread): 2\n",
        Ev.text "dumped threads: 0\n", Ev.text "+++ +++ +++\n"]) ∧
    (xcd_process_record (failing_env 8) sample_process sample_args []).map
      (fun res => res.2.length) = some 13 ∧
    xcd_process_record (failing_env 10) sample_process sample_args [] =
      some (0, [Ev.thread_record_info 1 "app",
        Ev.text "signal 4 (SIGILL), code 1 (ILL_ILLOPC), fault addr 0x1000 (*pc=00000000)\n",
        Ev.thread_record_regs 1, Ev.thread_record_backtrace 1,
        Ev.thread_record_buildid 1 0 4096, Ev.thread_record_stack 1,
        Ev.thread_record_memory 1, Ev.meminfo_record 100,
        Ev.text "--- --- ---\n", Ev.thread_record_info 2 "app", Ev.thread_record_regs 2,
        Ev.text "--- --- ---\n",
        Ev.text "total threads (exclude the crashed thread): 2\n",
        Ev.text "dumped threads: 0\n", Ev.text "+++ +++ +++\n"]) ∧
    xcd_process_record (failing_env 3) sample_process sample_args [] =
      some (5, [Ev.thread_record_info 1 "app",
        Ev.text "signal 4 (SIGILL), code 1 (ILL_ILLOPC), fault addr 0x1000 (*pc=00000000)\n",
        Ev.thread_record_regs 1, Ev.thread_record_backtrace 1]) ∧
    (xcd_process_record (failing_env 19) sample_process sample_args []).map
      (fun res => res.1) = some 5 ∧
    (xcd_process_record (failing_env 19) sample_process sample_args []).map
      (fun res => res.2.length) = some 20 ∧
    (broken_env 8).write_status 8 = 5 ∧
    xcd_process_record (broken_env 8) sample_process sample_args [] =
      some (5, [Ev.thread_record_info 1 "app",
        Ev.text "signal 4 (SIGILL), code 1 (ILL_ILLOPC), fault addr 0x1000 (*pc=00000000)\n",
        Ev.thread_record_regs 1, Ev.thread_record_backtrace 1,
        Ev.thread_record_buildid 1 0 4096, Ev.thread_record_stack 1,
        Ev.thread_record_memory 1, Ev.meminfo_record 100,
        Ev.text "--- --- ---\n",
        Ev.text "--- --- ---\n"]) := by
  decide

/-- In the second loop of `xcd_process_record`, for any statuses of the writes: when the
loop runs to its end the matched counter has grown by as much as the dumped and the ignored
counters together; when a write fails, the thread being dumped is counted as matched only,
so the matched counter has grown by one more. -/
theorem secondary_loop_counter_balance (E : Env R) (self : xcd_process_t)
    (re : Option (List (Option R))) (re_cnt : Nat) (c : Int) :
    ∀ (thds : List xcd_thread_t) (st : loop_state), st.r = 0 →
      (record_others_loop E self re re_cnt c thds st).thd_matched_regex -
          st.thd_matched_regex =
        ((record_others_loop E self re re_cnt c thds st).thd_dumped - st.thd_dumped) +
        ((record_others_loop E self re re_cnt c thds st).thd_ignored_by_limit -
          st.thd_ignored_by_limit) +
        (if (record_others_loop E self re re_cnt c thds st).r = 0 then 0 else 1) := by
  intro thds
  induction thds with
  | nil =>
    intro st hr
    simp [record_others_loop, hr]
  | cons thd rest ih =>
    intro st hr
    unfold record_others_loop
    split
    · split
      · exact ih st hr
      · simp only []
        split
        · have := ih ⟨st.r, st.log, st.thd_dumped, st.thd_matched_regex + 1,
            st.thd_ignored_by_limit + 1⟩ hr
          simp only [] at this
          omega
        · split
          · rename_i hfail
            simp only [if_neg hfail]
            omega
          · rename_i hok
            have hz : (record_other_thread E self thd st.log).1 = 0 := by
              simpa using hok
            have := ih ⟨(record_other_thread E self thd st.log).1,
              (record_other_thread E self thd st.log).2, st.thd_dumped + 1,
              st.thd_matched_regex + 1, st.thd_ignored_by_limit⟩ hz
            simp only [] at this
            omega
    · exact ih st hr

/-- A thread that the whitelist check rejects, and the crashed thread itself, leave the state
of the second loop, its three counters included, as it was. -/
theorem secondary_loop_skips_rejected (E : Env R) (self : xcd_process_t)
    (re : Option (List (Option R))) (re_cnt : Nat) (c : Int) (thd : xcd_thread_t)
    (rest : List xcd_thread_t) (st : loop_state)
    (h : thd.tid = self.crash_tid ∨
      (re.isSome ∧ re_cnt > 0 ∧ xcd_process_if_need_dump E.regexec thd.tname re re_cnt = 0)) :
    record_others_loop E self re re_cnt c (thd :: rest) st =
      record_others_loop E self re re_cnt c rest st := by
  conv_lhs => unfold record_others_loop
  by_cases h1 : thd.tid ≠ self.crash_tid
  · rw [if_pos h1]
    rcases h with h | h
    · exact absurd h h1
    · rw [if_pos h]
  · rw [if_neg h1]

/-- C9 at a failing input: three threads, the whitelist `worker` (both secondary threads
match), the ceiling 5, and the separator of the first secondary thread (attempt number 8)
fails. The loop is left with matched 1, dumped 0 and ignored 0, and the summary that is
written all the same reports these three numbers. -/
theorem summary_counters_after_failed_write :
    (failing_env 8).write_status 8 = 5 ∧
    (record_others_loop (failing_env 8) sample_process (some [some "worker"]) 1 5
      sample_process.thds
      ⟨0, (record_crash_loop (failing_env 8) sample_process sample_args sample_process.thds
        []).2, 0, 0, 0⟩).thd_matched_regex = 1 ∧
    (record_others_loop (failing_env 8) sample_process (some [some "worker"]) 1 5
      sample_process.thds
      ⟨0, (record_crash_loop (failing_env 8) sample_process sample_args sample_process.thds
        []).2, 0, 0, 0⟩).thd_dumped = 0 ∧
    (record_others_loop (failing_env 8) sample_process (some [some "worker"]) 1 5
      sample_process.thds
      ⟨0, (record_crash_loop (failing_env 8) sample_process sample_args sample_process.thds
        []).2, 0, 0, 0⟩).thd_ignored_by_limit = 0 ∧
    xcd_process_record (failing_env 8) sample_process
        { sample_args with
          dump_all_threads_whitelist := some "worker", dump_all_threads_count_max := 5 } [] =
      some (0, [Ev.thread_record_info 1 "app",
        Ev.text "signal 4 (SIGILL), code 1 (ILL_ILLOPC), fault addr 0x1000 (*pc=00000000)\n",
        Ev.thread_record_regs 1, Ev.thread_record_backtrace 1,
        Ev.thread_record_buildid 1 0 4096, Ev.thread_record_stack 1,
        Ev.thread_record_memory 1, Ev.meminfo_record 100,
        Ev.text "--- --- ---\n",
        Ev.text "--- --- ---\n",
        Ev.text "total threads (exclude the crashed thread): 2\n",
        Ev.text "threads matched whitelist: 1\n",
        Ev.text "threads ignored by max count limit: 0\n",
        Ev.text "dumped threads: 0\n", Ev.text "+++ +++ +++\n"]) := by
  decide

end XCrash
